import Mathlib

/-!
Verification of the my_lang compiler front-end (lexer, parser, semantic
analyzer) against its specification.  The definitions below are a shallow
embedding of the C++ sources: `ml/basic` (locus, flags, syntax tables,
accessors, modifiers), `ml/lexer`, `ml/parser` and `ml/sema`.  Machine
integers are modelled by `Nat` (no arithmetic here ever overflows), C++
nullable pointers by `Option`, undefined behaviour (null dereference,
`back()` on an empty vector, a thrown exception) by an `Option`-failure
monad, and unbounded `while` loops by an explicit fuel argument.
Diagnostics are modelled by their level and description; spans and help
text of diagnostics are not tracked (no claim depends on them).
-/

set_option maxHeartbeats 2000000

namespace ML

/-- Source location: line, column (1-based) and byte index (0-based),
mirroring `ml::basic::Locus`. -/
structure Locus where
  line : Nat
  column : Nat
  index : Nat
deriving DecidableEq, Repr

/-- Diagnostic severity levels, mirroring `ml::basic::ErrorLevel`. -/
inductive ErrLevel where
  | info
  | warning
  | error
  | fatal
deriving DecidableEq, Repr

/-- A diagnostic: level and description (spans and help text omitted). -/
structure Err where
  level : ErrLevel
  desc : String
deriving DecidableEq, Repr

/-- Bit-flag test from `ml/basic/flags.h`: `(flags & flag) == flag`. -/
def hasFlagN (flags flag : Nat) : Bool :=
  (flags &&& flag) == flag

/-- Accessors, mirroring `ml::basic::Accessor`. -/
inductive Accessor where
  | Public
  | Private
  | Protected
deriving DecidableEq, Repr

/-- Accessor keyword test from `accessor.h` (`isacc`). -/
def isacc (s : String) : Bool :=
  s == "pub" || s == "pri" || s == "pro"

/-- Accessor keyword decoding from `accessor.h` (`getacc`). -/
def getacc (s : String) : Accessor :=
  if s == "pub" then .Public
  else if s == "pri" then .Private
  else if s == "pro" then .Protected
  else .Private

/-- Accessibility rule from `accessor.h` (`canAccess`). -/
def canAccess (member_acc accessor_acc : Accessor) : Bool :=
  match member_acc with
  | .Public => true
  | .Private => accessor_acc == Accessor.Private
  | .Protected => accessor_acc == Accessor.Protected || accessor_acc == Accessor.Private

/-- Modifier bit values from `modifier.h` (`Modifier`), as a `Nat` bitmask:
None = 0, Static = 2, Constant = 4, Array = 8, Init = 16, Nullable = 32. -/
def modStatic : Nat := 2
def modConstant : Nat := 4
def modArray : Nat := 8
def modInit : Nat := 16
def modNullable : Nat := 32

/-- Modifier keyword test from `modifier.h` (`ismod`). -/
def ismod (s : String) : Bool :=
  s == "static" || s == "const" || s == "init"

/-- Modifier keyword decoding from `modifier.h` (`getmod`). -/
def getmod (s : String) : Nat :=
  if s == "static" then modStatic
  else if s == "const" then modConstant
  else if s == "init" then modInit
  else 0

/-- Whitespace predicate from `syntax.h` (`isWsp`). -/
def isWsp (c : Char) : Bool :=
  c == ' ' || c == '\t' || c == '\r' || c == '\n'

/-- Keyword test from `syntax.h` (`isKwy`), dispatching on length as the
source does. -/
def isKwy (s : String) : Bool :=
  if s.isEmpty then false
  else match s.length with
  | 2 => s == "if" || s == "fn" || s == "in"
  | 3 => s == "for" || s == "let" || s == "cls" || s == "rec" || s == "pub" || s == "pri" || s == "pro"
  | 4 => s == "elif" || s == "else" || s == "case" || s == "this" || s == "null" || s == "true"
  | 5 => s == "while" || s == "break" || s == "const" || s == "init" || s == "false"
  | 6 => s == "return" || s == "switch"
  | 7 => s == "default"
  | 8 => s == "continue"
  | _ => false

/-- Character access mirroring `std::string::operator[]` on a string of
size at least `i`: index `i` equal to the size yields the null character,
as for the C++ null terminator read by `opLen`. -/
def chAt (s : List Char) (i : Nat) : Char :=
  (s.drop i).headD '\x00'

/-- Operator-length function from `modifier.h` (`opLen`): `str[0]` switch
with `str[1]` compared against the possible second characters; a lone
single-character operator is recognised only when `str[1]` is the null
terminator. -/
def opLen (s : List Char) : Nat :=
  match s with
  | [] => 0
  | c0 :: _ =>
    let c1 := chAt s 1
    if c0 == '+' then
      if c1 == '=' then 2 else if c1 == '+' then 2 else if c1 == '\x00' then 1 else 0
    else if c0 == '-' then
      if c1 == '=' then 2 else if c1 == '-' then 2 else if c1 == '\x00' then 1 else 0
    else if c0 == '*' then
      if c1 == '=' then 2 else if c1 == '*' then 2 else if c1 == '\x00' then 1 else 0
    else if c0 == '/' then
      if c1 == '=' then 2 else if c1 == '\x00' then 1 else 0
    else if c0 == '%' then
      if c1 == '%' then 2 else if c1 == '\x00' then 1 else 0
    else if c0 == '=' then
      if c1 == '=' then 2 else if c1 == '\x00' then 1 else 0
    else if c0 == '!' then
      if c1 == '=' then 2 else if c1 == '\x00' then 1 else 0
    else if c0 == '<' then
      if c1 == '=' then 2 else if c1 == '<' then 2 else if c1 == '\x00' then 1 else 0
    else if c0 == '>' then
      if c1 == '=' then 2 else if c1 == '>' then 2 else if c1 == '\x00' then 1 else 0
    else if c0 == '.' then
      if c1 == '.' then 2 else if c1 == '=' then 2 else if c1 == '\x00' then 1 else 0
    else if c0 == '&' then
      if c1 == '&' then 2 else if c1 == '\x00' then 1 else 0
    else if c0 == '|' then
      if c1 == '|' then 2 else if c1 == '\x00' then 1 else 0
    else if c0 == '?' then
      if c1 == '?' then 2 else if c1 == '\x00' then 1 else 0
    else if c0 == '^' then
      if c1 == '\x00' then 1 else 0
    else if c0 == '~' then
      if c1 == '\x00' then 1 else 0
    else 0

/-- Operator test from `modifier.h` (`isOp`). -/
def isOp (s : List Char) : Bool :=
  opLen s != 0

/-- Delimiter test from `modifier.h` (`isDel`): switch on the first
character. -/
def isDel (s : List Char) : Bool :=
  match s with
  | [] => false
  | c :: _ =>
    c == '(' || c == ')' || c == '[' || c == ']' || c == '\x7b' || c == '\x7d' ||
    c == ':' || c == ';' || c == '.' || c == ','

/-- Token kinds, mirroring `ml::lexer::TokenKind`. -/
inductive TokenKind where
  | none
  | integer
  | float
  | boolean
  | character
  | string
  | identifier
  | keyword
  | operator
  | delimiter
  | eof
deriving DecidableEq, Repr

/-- A lexical token: kind, lexeme and span, mirroring `ml::lexer::Token`. -/
structure Token where
  kind : TokenKind
  value : String
  startLoc : Locus
  endLoc : Locus
deriving DecidableEq, Repr

/-- The default-constructed `Token()`: kind None, value `"\0"`, span at
line 1 column 1. -/
def Token.defaultTok : Token :=
  { kind := .none, value := "\x00", startLoc := ⟨1, 1, 0⟩, endLoc := ⟨1, 1, 0⟩ }

/-- Lexer cursor state: the `start_` and `current_` loci of `ml::lexer::Lexer`.
The source text is passed separately (it is set once per `lex` call). -/
structure LexSt where
  startL : Locus
  current : Locus
deriving DecidableEq, Repr

/-- End-of-input test (`Lexer::isEof`). -/
def lexIsEof (src : List Char) (st : LexSt) : Bool :=
  decide (st.current.index ≥ src.length)

/-- Current character (`Lexer::peek`): the null character at end of input. -/
def lexPeek (src : List Char) (st : LexSt) : Char :=
  if lexIsEof src st then '\x00' else src.getD st.current.index '\x00'

/-- One-character lookahead string (`Lexer::look`):
`substr(current, 1)` is empty at end of input. -/
def lexLook (src : List Char) (st : LexSt) : List Char :=
  ((src.drop st.current.index).take 1)

/-- Lexeme accumulated so far (`Lexer::value`):
`substr(start, current - start)`. -/
def lexValue (src : List Char) (st : LexSt) : List Char :=
  (src.drop st.startL.index).take (st.current.index - st.startL.index)

/-- Advance one character with newline/column bookkeeping
(`Lexer::advance`); a no-op at end of input. -/
def lexAdvance (src : List Char) (st : LexSt) : LexSt :=
  if lexIsEof src st then st
  else
    let c := src.getD st.current.index '\x00'
    let cur := st.current
    if c == '\n' then
      { st with current := ⟨cur.line + 1, 1, cur.index + 1⟩ }
    else
      { st with current := ⟨cur.line, cur.column + 1, cur.index + 1⟩ }

/-- Predicate-driven consumption (`Lexer::take`), with fuel standing in
for the unbounded `while`; every call site passes fuel `src.length + 1`,
which always suffices. -/
def lexTake (src : List Char) (p : Char → Bool) : Nat → LexSt → LexSt
  | 0, st => st
  | fuel + 1, st =>
    if p (lexPeek src st) then
      if lexIsEof src st then st
      else lexTake src p fuel (lexAdvance src st)
    else st

/-- Reset the lexeme start (`Lexer::ignore`). -/
def lexIgnore (st : LexSt) : LexSt :=
  { st with startL := st.current }

/-- Build a token from the accumulated lexeme (`Lexer::makeToken`). -/
def lexMakeToken (src : List Char) (kind : TokenKind) (st : LexSt) : Token × LexSt :=
  (⟨kind, ⟨lexValue src st⟩, st.startL, st.current⟩, lexIgnore st)

/-- Alphanumeric/keyword rule (`Lexer::lexAlpha`).  Returns `none` when the
rule does not apply. -/
def lexAlpha (src : List Char) (st : LexSt) : Option (Token × LexSt) :=
  if (lexPeek src st).isAlpha || lexPeek src st == '_' then
    let st := lexTake src (fun c => c.isAlphanum || c == '_') (src.length + 1) st
    if isKwy ⟨lexValue src st⟩ then
      some (lexMakeToken src .keyword st)
    else
      some (lexMakeToken src .identifier st)
  else none

/-- Numeric rule (`Lexer::lexNumeric`): digits, then a fractional part
unless the dot starts a `..` range operator. -/
def lexNumeric (src : List Char) (st : LexSt) : Option (Token × LexSt) :=
  if (lexPeek src st).isDigit then
    let st := lexTake src Char.isDigit (src.length + 1) st
    if lexPeek src st == '.' then
      if st.current.index + 1 < src.length && src.getD (st.current.index + 1) '\x00' == '.' then
        some (lexMakeToken src .integer st)
      else
        let st := lexAdvance src st
        let st := lexTake src Char.isDigit (src.length + 1) st
        some (lexMakeToken src .float st)
    else
      some (lexMakeToken src .integer st)
  else none

/-- Character-literal rule (`Lexer::lexCharacter`), emitting the
"Empty character literal" and "Unterminated character literal"
diagnostics exactly as the source does. -/
def lexCharacter (src : List Char) (st : LexSt) : Option (Token × List Err × LexSt) :=
  if lexPeek src st == '\'' then
    let st := lexAdvance src st
    let (errs1, st) :=
      if lexPeek src st == '\\' then
        (([] : List Err), lexAdvance src (lexAdvance src st))
      else if lexPeek src st != '\'' then
        (([] : List Err), lexAdvance src st)
      else
        ([⟨.error, "Empty character literal"⟩], st)
    let (errs2, st) :=
      if lexPeek src st != '\'' then
        ([⟨ErrLevel.error, "Unterminated character literal"⟩], st)
      else
        (([] : List Err), lexAdvance src st)
    let (tok, st) := lexMakeToken src .character st
    some (tok, errs1 ++ errs2, st)
  else none

/-- Body of the string-literal `while` loop of `Lexer::lexString`:
consume to the next quote, diagnosing an unterminated literal at end of
input. -/
def lexStringBody (src : List Char) : Nat → LexSt → List Err × LexSt
  | 0, st => ([], st)
  | fuel + 1, st =>
    if lexPeek src st != '"' then
      if lexIsEof src st then
        ([⟨ErrLevel.error, "Unterminated string literal"⟩], st)
      else
        lexStringBody src fuel (lexAdvance src st)
    else ([], st)

/-- String-literal rule (`Lexer::lexString`). -/
def lexString (src : List Char) (st : LexSt) : Option (Token × List Err × LexSt) :=
  if lexPeek src st == '"' then
    let st := lexAdvance src st
    let (errs, st) := lexStringBody src (src.length + 1) st
    let st := lexAdvance src st
    let (tok, st) := lexMakeToken src .string st
    some (tok, errs, st)
  else none

/-- Operator rule (`Lexer::lexOperator`): one character, extended to two
when the accumulated prefix plus the next character is also an operator. -/
def lexOperator (src : List Char) (st : LexSt) : Option (Token × LexSt) :=
  if isOp (lexLook src st) then
    let st := lexAdvance src st
    let st :=
      if isOp (lexValue src st ++ [lexPeek src st]) then lexAdvance src st
      else st
    some (lexMakeToken src .operator st)
  else none

/-- Delimiter rule (`Lexer::lexDelimiter`). -/
def lexDelimiter (src : List Char) (st : LexSt) : Option (Token × LexSt) :=
  if isDel (lexLook src st) then
    some (lexMakeToken src .delimiter (lexAdvance src st))
  else none

/-- One lexing step (`Lexer::next`): skip whitespace, then try the rules
in order alpha, numeric, character, string, operator, delimiter; at end
of input emit Eof, otherwise fall through to a None token. -/
def lexNext (src : List Char) (st : LexSt) : Token × List Err × LexSt :=
  let st := lexTake src isWsp (src.length + 1) st
  let st := lexIgnore st
  if lexIsEof src st then
    (⟨.eof, "", st.current, st.current⟩, [], st)
  else match lexAlpha src st with
  | some (tok, st) => (tok, [], st)
  | none => match lexNumeric src st with
  | some (tok, st) => (tok, [], st)
  | none => match lexCharacter src st with
  | some (tok, errs, st) => (tok, errs, st)
  | none => match lexString src st with
  | some (tok, errs, st) => (tok, errs, st)
  | none => match lexOperator src st with
  | some (tok, st) => (tok, [], st)
  | none => match lexDelimiter src st with
  | some (tok, st) => (tok, [], st)
  | none =>
    let (tok, st) := lexMakeToken src .none st
    (tok, [], st)

/-- The token-collecting loop of `Lexer::lex`: push each token and stop
after an Eof or None token.  Fuel `src.length + 1` always suffices
because every other token consumes at least one character. -/
def lexLoop (src : List Char) : Nat → LexSt → List Token × List Err
  | 0, _ => ([], [])
  | fuel + 1, st =>
    let (tok, errs, st') := lexNext src st
    if tok.kind == TokenKind.eof || tok.kind == TokenKind.none then
      ([tok], errs)
    else
      let (ts, es) := lexLoop src fuel st'
      (tok :: ts, errs ++ es)

/-- The initial cursor (`Lexer::reset`): line 1, column 1, index 0. -/
def lexInit : LexSt :=
  ⟨⟨1, 1, 0⟩, ⟨1, 1, 0⟩⟩

/-- Public lexing entry point (`Lexer::lex`): the token list and the
diagnostics logged while producing it. -/
def lex (source : String) : List Token × List Err :=
  lexLoop source.data (source.data.length + 1) lexInit

/-! ### State/failure monad

C++ member functions mutating `this` become functions in a state monad;
`none` models undefined behaviour (null dereference, out-of-bounds vector
access, a thrown exception). -/

/-- State-passing computation that can fail (undefined behaviour). -/
def SM (σ : Type) (α : Type) : Type := σ → Option (α × σ)

instance : Monad (SM σ) where
  pure a := fun s => some (a, s)
  bind m f := fun s => match m s with
    | none => none
    | some (a, s') => f a s'

/-- Undefined behaviour: null dereference, vector out-of-bounds, throw. -/
def SM.crash : SM σ α := fun _ => none

/-- Read the current state. -/
def SM.get : SM σ σ := fun s => some (s, s)

/-- Update the current state. -/
def SM.modifyS (f : σ → σ) : SM σ Unit := fun s => some ((), f s)

/-! ### AST

Tagged variants for the C++ class hierarchy of `ml::ast`.  Nullable
`unique_ptr` children that the source checks for null (optional
initializers, conditions, branches, a possibly-null array size, and the
possibly-null expressions the parser stores into argument/element lists)
are `Option`; children the source never null-checks are plain fields. -/

/-- Literal kinds, mirroring `ml::ast::LiteralType`. -/
inductive LiteralType where
  | integer
  | float
  | string
  | character
  | boolean
  | nullLit
deriving DecidableEq, Repr

/-- Expressions, mirroring the `ml::ast::Expression` hierarchy.
`arrayIdent` corresponds to `ArrayIdentifierExpression` (a subclass of
`IdentifierExpression` in the source); `call` and `arrayE` hold the
possibly-null pointers the parser pushes into their vectors. -/
inductive Expr where
  | binary (sLoc eLoc : Locus) (left : Expr) (op : String) (right : Expr)
  | unary (sLoc eLoc : Locus) (op : String) (operand : Expr)
  | literal (sLoc eLoc : Locus) (value : String) (litType : LiteralType)
  | ident (sLoc eLoc : Locus) (name : String)
  | arrayIdent (sLoc eLoc : Locus) (name : String) (size : Option Expr)
  | indexE (sLoc eLoc : Locus) (array : Expr) (index : Expr)
  | call (sLoc eLoc : Locus) (callee : Expr) (arguments : List (Option Expr))
  | attrE (sLoc eLoc : Locus) (object : Expr) (attrExpr : Expr)
  | arrayE (sLoc eLoc : Locus) (elements : List (Option Expr))

/-- Start locus of an expression node. -/
def Expr.sLoc : Expr → Locus
  | .binary s _ _ _ _ => s
  | .unary s _ _ _ => s
  | .literal s _ _ _ => s
  | .ident s _ _ => s
  | .arrayIdent s _ _ _ => s
  | .indexE s _ _ _ => s
  | .call s _ _ _ => s
  | .attrE s _ _ _ => s
  | .arrayE s _ _ => s

/-- End locus of an expression node. -/
def Expr.eLoc : Expr → Locus
  | .binary _ e _ _ _ => e
  | .unary _ e _ _ => e
  | .literal _ e _ _ => e
  | .ident _ e _ => e
  | .arrayIdent _ e _ _ => e
  | .indexE _ e _ _ => e
  | .call _ e _ _ => e
  | .attrE _ e _ _ => e
  | .arrayE _ e _ => e

/-- The identifier sub-node of a declaration (`IdentifierExpression`). -/
structure IdentInfo where
  sLoc : Locus
  eLoc : Locus
  name : String

/-- A `ModifierStatement`: accessor and modifier bitmask with its span. -/
structure ModInfo where
  sLoc : Locus
  eLoc : Locus
  accessor : Accessor
  modifier : Nat

mutual

/-- Declarations (`ml::ast::Declaration` subclasses). -/
inductive Decl where
  | dvar (v : VarDecl)
  | dfunc (f : FuncDecl)
  | drec (sLoc eLoc : Locus) (identifier : IdentInfo) (typeE : Expr) (modifier : ModInfo) (fields : List VarDecl)
  | dcls (sLoc eLoc : Locus) (identifier : IdentInfo) (typeE : Expr) (modifier : ModInfo) (fields : List VarDecl) (methods : List FuncDecl)

/-- `VariableDeclaration`: identifier, type expression, modifier, optional
initializer. -/
inductive VarDecl where
  | mk (sLoc eLoc : Locus) (identifier : IdentInfo) (typeE : Expr) (modifier : ModInfo) (initializer : Option Expr)

/-- `FunctionDeclaration`: parameters and body block. -/
inductive FuncDecl where
  | mk (sLoc eLoc : Locus) (identifier : IdentInfo) (typeE : Expr) (modifier : ModInfo) (parameters : List VarDecl) (body : Block)

/-- `BlockStatement`. -/
inductive Block where
  | mk (sLoc eLoc : Locus) (statements : List Stmt)

/-- `IfConditional`: condition, then, elif list, optional else. -/
inductive IfCond where
  | mk (sLoc eLoc : Locus) (condition : Expr) (thenBranch : Block) (elifBranches : List IfCond) (elseBranch : Option Block)

/-- A plain `Conditional` used as a switch case: nullable case
expression (null = default) and block. -/
inductive CaseCond where
  | mk (sLoc eLoc : Locus) (condition : Option Expr) (thenBranch : Block)

/-- `SwitchConditional`: scrutinee and case list. -/
inductive SwitchCond where
  | mk (sLoc eLoc : Locus) (switchExpression : Expr) (caseBranches : List CaseCond)

/-- Statements (`ml::ast::Statement` subclasses). -/
inductive Stmt where
  | sreturn (sLoc eLoc : Locus) (expression : Option Expr)
  | sbreak (sLoc eLoc : Locus)
  | scontinue (sLoc eLoc : Locus)
  | sexpr (sLoc eLoc : Locus) (expression : Expr)
  | sblock (b : Block)
  | smodifier (m : ModInfo)
  | sdecl (d : Decl)
  | sif (c : IfCond)
  | sswitch (sw : SwitchCond)
  | swhile (sLoc eLoc : Locus) (condition : Expr) (thenBranch : Block)
  | sfor (sLoc eLoc : Locus) (initializer : Option Decl) (condition : Option Expr) (increment : Option Expr) (thenBranch : Block)

end

/-- Start locus of a block. -/
def Block.sLoc : Block → Locus
  | .mk s _ _ => s

/-- End locus of a block. -/
def Block.eLoc : Block → Locus
  | .mk _ e _ => e

/-- Statements of a block. -/
def Block.statements : Block → List Stmt
  | .mk _ _ st => st

/-- Start locus of a variable declaration. -/
def VarDecl.sLoc : VarDecl → Locus
  | .mk s _ _ _ _ _ => s

/-- End locus of a variable declaration. -/
def VarDecl.eLoc : VarDecl → Locus
  | .mk _ e _ _ _ _ => e

/-- Identifier of a variable declaration. -/
def VarDecl.identifier : VarDecl → IdentInfo
  | .mk _ _ i _ _ _ => i

/-- Type expression of a variable declaration. -/
def VarDecl.typeE : VarDecl → Expr
  | .mk _ _ _ t _ _ => t

/-- Modifier of a variable declaration. -/
def VarDecl.modifier : VarDecl → ModInfo
  | .mk _ _ _ _ m _ => m

/-- Initializer of a variable declaration. -/
def VarDecl.initializer : VarDecl → Option Expr
  | .mk _ _ _ _ _ i => i

/-- Start locus of a function declaration. -/
def FuncDecl.sLoc : FuncDecl → Locus
  | .mk s _ _ _ _ _ _ => s

/-- End locus of a function declaration. -/
def FuncDecl.eLoc : FuncDecl → Locus
  | .mk _ e _ _ _ _ _ => e

/-- Identifier of a function declaration. -/
def FuncDecl.identifier : FuncDecl → IdentInfo
  | .mk _ _ i _ _ _ _ => i

/-- Parameters of a function declaration. -/
def FuncDecl.parameters : FuncDecl → List VarDecl
  | .mk _ _ _ _ _ ps _ => ps

/-- Body of a function declaration. -/
def FuncDecl.body : FuncDecl → Block
  | .mk _ _ _ _ _ _ b => b

/-- End locus of an if conditional. -/
def IfCond.eLoc : IfCond → Locus
  | .mk _ e _ _ _ _ => e

/-- End locus of a switch case. -/
def CaseCond.eLoc : CaseCond → Locus
  | .mk _ e _ _ => e

/-- End locus of a switch conditional node. -/
def SwitchCond.eLoc : SwitchCond → Locus
  | .mk _ e _ _ => e

/-- Case branches of a switch conditional node. -/
def SwitchCond.caseBranches : SwitchCond → List CaseCond
  | .mk _ _ _ cs => cs

/-- Start locus of a declaration. -/
def Decl.sLoc : Decl → Locus
  | .dvar v => v.sLoc
  | .dfunc f => f.sLoc
  | .drec s _ _ _ _ _ => s
  | .dcls s _ _ _ _ _ _ => s

/-- End locus of a declaration. -/
def Decl.eLoc : Decl → Locus
  | .dvar v => v.eLoc
  | .dfunc f => f.eLoc
  | .drec _ e _ _ _ _ => e
  | .dcls _ e _ _ _ _ _ => e

/-- Start locus of a statement. -/
def Stmt.sLoc : Stmt → Locus
  | .sreturn s _ _ => s
  | .sbreak s _ => s
  | .scontinue s _ => s
  | .sexpr s _ _ => s
  | .sblock b => b.sLoc
  | .smodifier m => m.sLoc
  | .sdecl d => d.sLoc
  | .sif (.mk s _ _ _ _ _) => s
  | .sswitch (.mk s _ _ _) => s
  | .swhile s _ _ _ => s
  | .sfor s _ _ _ _ _ => s

/-- End locus of a statement. -/
def Stmt.eLoc : Stmt → Locus
  | .sreturn _ e _ => e
  | .sbreak _ e => e
  | .scontinue _ e => e
  | .sexpr _ e _ => e
  | .sblock b => b.eLoc
  | .smodifier m => m.eLoc
  | .sdecl d => d.eLoc
  | .sif (.mk _ e _ _ _ _) => e
  | .sswitch (.mk _ e _ _) => e
  | .swhile _ e _ _ => e
  | .sfor _ e _ _ _ _ => e

/-- The root `Program` node. -/
structure Program where
  sLoc : Locus
  eLoc : Locus
  statements : List Stmt

/-! ### Parser

Shallow embedding of `ml::parser::Parser` (parser.cpp).  The parser state
is the token vector, current index, last consumed token and the
diagnostics log.  Each unbounded loop and each (mutually) recursive
parse function takes a fuel argument; fuel exhaustion yields `none`. -/

/-- Parser state (`Parser` members). -/
structure PState where
  tokens : List Token
  index : Nat
  lastToken : Token
  log : List Err

/-- End-of-token-stream test (`Parser::isEof`): past the last token, or at
a terminal token with an empty lexeme. -/
def pIsEof (st : PState) : Bool :=
  if st.index ≥ st.tokens.length then true
  else if st.index == st.tokens.length - 1 then
    match st.tokens.get? st.index with
    | some t => t.value == ""
    | none => false
  else false

/-- Current token pointer (`Parser::peek`): null at end. -/
def peekF (st : PState) : Option Token :=
  if pIsEof st then none else st.tokens.get? st.index

/-- Lookahead token pointer (`Parser::look`): null past the end. -/
def lookF (st : PState) (offset : Nat) : Option Token :=
  if st.index + offset ≥ st.tokens.length then none
  else st.tokens.get? (st.index + offset)

/-- Consume and return the current token (`Parser::advance`); null at end,
otherwise records the consumed token as `last_token_`. -/
def pAdvance : SM PState (Option Token) := fun st =>
  if pIsEof st then some (none, st)
  else match st.tokens.get? st.index with
    | some t => some (some t, { st with index := st.index + 1, lastToken := t })
    | none => none

/-- Log a diagnostic (`Error::log`). -/
def pLog (lvl : ErrLevel) (d : String) : SM PState Unit := fun st =>
  some ((), { st with log := st.log ++ [⟨lvl, d⟩] })

/-- Token kind names from `token.h` (`tokenKindName`). -/
def tokenKindName : TokenKind → String
  | .none => "None"
  | .integer => "Integer"
  | .float => "Float"
  | .boolean => "Boolean"
  | .character => "Character"
  | .string => "String"
  | .identifier => "Identifier"
  | .keyword => "Keyword"
  | .operator => "Operator"
  | .delimiter => "Delimiter"
  | .eof => "Eof"

/-- The token at `index_ - 1` (`this->tokens_[this->index_ - 1].get()`,
used for the just-consumed operator token); out of bounds is undefined
behaviour. -/
def prevToken : SM PState Token := do
  let st ← SM.get
  match st.tokens.get? (st.index - 1) with
  | some t => pure t
  | none => SM.crash

/-- `Parser::expectToken`: dereferences `peek()` before the eof check (so
end of input is a null dereference), logs on kind mismatch, then
advances. -/
def expectToken (kind : TokenKind) (msg : String) : SM PState (Option Token) := do
  let st ← SM.get
  match peekF st with
  | none => SM.crash
  | some tok => do
    if tok.kind != kind || pIsEof st then
      pLog .error ("Unexpected token: '" ++ tokenKindName tok.kind ++ "'")
    pAdvance

/-- `Parser::expectValue`: at end of input logs and returns the null
pointer; otherwise logs on value mismatch and advances. -/
def expectValue (v : String) (msg : String) : SM PState (Option Token) := do
  let st ← SM.get
  if pIsEof st then do
    pLog .error "Unexpected end of input"
    pure none
  else
    match peekF st with
    | none => do
      pLog .error "Unexpected value: 'null'"
      pAdvance
    | some tok => do
      if tok.value != v then
        pLog .error ("Unexpected value: '" ++ tok.value ++ "'")
      pAdvance

/-- `Parser::matchToken`. -/
def matchToken (kind : TokenKind) : SM PState Bool := do
  let st ← SM.get
  match peekF st with
  | some tok =>
    if !pIsEof st && tok.kind == kind then do
      _ ← pAdvance
      pure true
    else pure false
  | none => pure false

/-- `Parser::matchValue`. -/
def matchValue (v : String) : SM PState Bool := do
  let st ← SM.get
  match peekF st with
  | some tok =>
    if !pIsEof st && tok.value == v then do
      _ ← pAdvance
      pure true
    else pure false
  | none => pure false

/-- `Parser::checkToken`. -/
def checkToken (kind : TokenKind) : SM PState Bool := do
  let st ← SM.get
  match peekF st with
  | some tok => pure (!pIsEof st && tok.kind == kind)
  | none => pure false

/-- `Parser::checkValue`. -/
def checkValue (v : String) : SM PState Bool := do
  let st ← SM.get
  match peekF st with
  | some tok => pure (!pIsEof st && tok.value == v)
  | none => pure false

/-- Scan over a run of accessors/modifiers inside `Parser::parseClass`
(the inner `while (token_j && (isacc || ismod)) j++` loop); fuel
`tokens.length + 1` always suffices. -/
def scanAccMod (st : PState) : Nat → Nat → Nat
  | 0, j => j
  | fuel + 1, j =>
    match lookF st j with
    | some t => if isacc t.value || ismod t.value then scanAccMod st fuel (j + 1) else j
    | none => j

mutual

/-- `Parser::parseProgram`: collect statements, then span from the first
statement's start to the last statement's end (or line 1 column 1). -/
def parseProgram : Nat → SM PState Program
  | 0 => SM.crash
  | fuel + 1 => do
    let stmts ← parseProgramLoop fuel
    match stmts.head?, stmts.getLast? with
    | some f, some b => pure ⟨f.sLoc, b.eLoc, stmts⟩
    | _, _ => pure ⟨⟨1, 1, 0⟩, ⟨1, 1, 0⟩, stmts⟩

/-- The statement-collecting loop of `parseProgram`: a null statement
makes the parser advance one token and retry. -/
def parseProgramLoop : Nat → SM PState (List Stmt)
  | 0 => SM.crash
  | fuel + 1 => do
    let st ← SM.get
    if pIsEof st then pure []
    else do
      let stmt? ← parseStatement fuel
      match stmt? with
      | some stmt => do
        let rest ← parseProgramLoop fuel
        pure (stmt :: rest)
      | none => do
        _ ← pAdvance
        parseProgramLoop fuel

/-- `Parser::parseStatement`: dispatch on the lookahead lexeme; note the
unguarded `peek()->value` dereference in the accessor test. -/
def parseStatement : Nat → SM PState (Option Stmt)
  | 0 => SM.crash
  | fuel + 1 => do
    if (← checkValue "return") then
      return some (← parseReturn fuel)
    if (← checkValue "break") then
      return some (← parseBreak fuel)
    if (← checkValue "continue") then
      return some (← parseContinue fuel)
    if (← checkValue "\x7b") then
      return some (.sblock (← parseBlock fuel))
    if (← checkValue "let") then
      return some (.sdecl (.dvar (← parseVariable fuel true true)))
    if (← checkValue "fn") then
      return some (.sdecl (.dfunc (← parseFunction fuel)))
    let st ← SM.get
    match peekF st with
    | none => SM.crash
    | some tok => do
      if isacc tok.value then
        return some (.sdecl (.dfunc (← parseFunction fuel)))
      if (← checkValue "rec") then
        return some (.sdecl (← parseRecord fuel))
      if (← checkValue "cls") then
        return some (.sdecl (← parseClass fuel))
      if (← checkValue "if") then
        return some (.sif (← parseIf fuel))
      if (← checkValue "switch") then
        return some (.sswitch (← parseSwitch fuel))
      if (← checkValue "while") then
        return some (← parseWhile fuel)
      if (← checkValue "for") then
        return some (← parseFor fuel)
      parseExpressionStatement fuel

/-- `Parser::parseReturn`. -/
def parseReturn : Nat → SM PState Stmt
  | 0 => SM.crash
  | fuel + 1 => do
    let returnToken? ← expectValue "return" "to start return statement"
    if (← matchValue ";") then
      match returnToken? with
      | none => SM.crash
      | some rt => pure (.sreturn rt.startLoc rt.endLoc none)
    else do
      let expr? ← parseExpression fuel
      _ ← expectValue ";" "after return expression"
      match returnToken?, expr? with
      | some rt, some e => pure (.sreturn rt.startLoc e.eLoc (some e))
      | _, _ => SM.crash

/-- `Parser::parseBreak`. -/
def parseBreak : Nat → SM PState Stmt
  | 0 => SM.crash
  | _fuel + 1 => do
    let breakToken? ← expectValue "break" ""
    let semi? ← expectValue ";" "after break statement"
    match breakToken?, semi? with
    | some b, some s => pure (.sbreak b.startLoc s.endLoc)
    | _, _ => SM.crash

/-- `Parser::parseContinue`. -/
def parseContinue : Nat → SM PState Stmt
  | 0 => SM.crash
  | _fuel + 1 => do
    let continueToken? ← expectValue "continue" ""
    let semi? ← expectValue ";" "after continue statement"
    match continueToken?, semi? with
    | some c, some s => pure (.scontinue c.startLoc s.endLoc)
    | _, _ => SM.crash

/-- `Parser::parseBlock`. -/
def parseBlock : Nat → SM PState Block
  | 0 => SM.crash
  | fuel + 1 => do
    let leftBrace? ← expectValue "\x7b" "to start a block statement"
    let stmts ← parseBlockLoop fuel
    let rightBrace? ← expectValue "\x7d" "to end a block statement"
    match leftBrace?, rightBrace? with
    | some l, some r => pure (Block.mk l.startLoc r.endLoc stmts)
    | _, _ => SM.crash

/-- The statement loop of `parseBlock`. -/
def parseBlockLoop : Nat → SM PState (List Stmt)
  | 0 => SM.crash
  | fuel + 1 => do
    let st ← SM.get
    if pIsEof st then pure []
    else do
      let isEnd ← checkValue "\x7d"
      if isEnd then pure []
      else do
        let stmt? ← parseStatement fuel
        match stmt? with
        | some s => do
          let rest ← parseBlockLoop fuel
          pure (s :: rest)
        | none => do
          _ ← pAdvance
          parseBlockLoop fuel

/-- `Parser::parseModifier`: optional accessor then a run of modifiers;
note the unguarded `peek()` dereferences. -/
def parseModifier : Nat → SM PState ModInfo
  | 0 => SM.crash
  | fuel + 1 => do
    let st ← SM.get
    match peekF st with
    | none => SM.crash
    | some startTok => do
      let start := startTok.startLoc
      let acc ←
        if isacc startTok.value then do
          let accTok? ← pAdvance
          match accTok? with
          | none => SM.crash
          | some at2 => pure (getacc at2.value)
        else pure Accessor.Private
      let (modifier, endLoc) ← parseModLoop fuel 0 start
      pure (ModInfo.mk start endLoc acc modifier)

/-- The modifier-collecting loop of `parseModifier`. -/
def parseModLoop : Nat → Nat → Locus → SM PState (Nat × Locus)
  | 0, _, _ => SM.crash
  | fuel + 1, modifier, endLoc => do
    let st ← SM.get
    match peekF st with
    | none => SM.crash
    | some t =>
      if ismod t.value then do
        let modTok? ← pAdvance
        match modTok? with
        | none => SM.crash
        | some mt => parseModLoop fuel (modifier ||| getmod mt.value) mt.endLoc
      else pure (modifier, endLoc)

/-- `Parser::parseExpressionStatement`: a null expression returns the null
statement; otherwise the span end is `semicolonToken->end`, dereferencing
the possibly-null result of `expectValue`. -/
def parseExpressionStatement : Nat → SM PState (Option Stmt)
  | 0 => SM.crash
  | fuel + 1 => do
    let expr? ← parseExpression fuel
    match expr? with
    | none => pure none
    | some e => do
      let semi? ← expectValue ";" "after expression statement"
      match semi? with
      | none => SM.crash
      | some s => pure (some (Stmt.sexpr e.sLoc s.endLoc e))

/-- Shared tail of `Parser::parseVariable`: optional initializer,
optional semicolon, node construction. -/
def parseVariableTail (fuel : Nat) (semicolon : Bool) (startL : Locus)
    (identifier : IdentInfo) (typeE : Expr) (modifier : ModInfo)
    (fallbackEnd : Locus) : SM PState VarDecl := do
  let initializer ←
    if (← matchValue "=") then parseExpression fuel
    else pure none
  if semicolon then do
    _ ← expectValue ";" "after variable declaration"
    pure ()
  let endLoc := match initializer with
    | some ie => ie.eLoc
    | none => fallbackEnd
  pure (VarDecl.mk startL endLoc identifier typeE modifier initializer)

/-- The `identifier [size?]` type-expression shape šhared by the branches
of `parseVariable` and `parseFunction`: empty brackets record the size as
the integer literal `-1`. -/
def parseTypeShape (fuel : Nat) (tyTok : Token) : SM PState Expr := do
  if (← matchValue "[") then do
    let size ←
      if (← checkValue "]") then
        pure (some (Expr.literal tyTok.startLoc tyTok.endLoc "-1" .integer))
      else
        parseExpression fuel
    _ ← expectValue "]" "after array size in variable declaration"
    pure (Expr.arrayIdent tyTok.startLoc tyTok.endLoc tyTok.value size)
  else
    pure (Expr.ident tyTok.startLoc tyTok.endLoc tyTok.value)

/-- `Parser::parseVariable`: optional `let`, modifier prefix, identifier,
then either a `:`-introduced type, a warned-about missing-colon type, or
no type annotation (type defaults to `void` at locus 0:0). -/
def parseVariable : Nat → Bool → Bool → SM PState VarDecl
  | 0, _, _ => SM.crash
  | fuel + 1, verbose, semicolon => do
    if verbose then do
      _ ← expectValue "let" ""
      pure ()
    let modifier ← parseModifier fuel
    let identifierToken? ← expectToken .identifier "after 'let' in variable declaration"
    match identifierToken? with
    | none => SM.crash
    | some identTok => do
      let identifier : IdentInfo := ⟨identTok.startLoc, identTok.endLoc, identTok.value⟩
      if (← matchValue ":") then do
        let tyTok? ← expectToken .identifier "after ':' in variable declaration"
        match tyTok? with
        | none => SM.crash
        | some tyTok => do
          let typeE ← parseTypeShape fuel tyTok
          let modifier ←
            if (← matchValue "?") then
              pure { modifier with modifier := modifier.modifier ||| modNullable }
            else pure modifier
          parseVariableTail fuel semicolon identTok.startLoc identifier typeE modifier tyTok.endLoc
      else do
        let isId ← checkToken .identifier
        if isId then do
          pLog .warning "Type annotation missing ':' in variable declaration"
          let tyTok? ← pAdvance
          match tyTok? with
          | none => SM.crash
          | some tyTok => do
            let typeE ← parseTypeShape fuel tyTok
            parseVariableTail fuel semicolon identTok.startLoc identifier typeE modifier tyTok.endLoc
        else do
          let modifier ←
            if (← matchValue "?") then
              pure { modifier with modifier := modifier.modifier ||| modNullable }
            else pure modifier
          parseVariableTail fuel semicolon identTok.startLoc identifier
            (Expr.ident ⟨0, 0, 0⟩ ⟨0, 0, 0⟩ "void") modifier identTok.endLoc

/-- `Parser::parseFunction`. -/
def parseFunction : Nat → SM PState FuncDecl
  | 0 => SM.crash
  | fuel + 1 => do
    let modifier ← parseModifier fuel
    _ ← expectValue "fn" "to start function declaration"
    let st ← SM.get
    match peekF st with
    | none => SM.crash
    | some t => do
      if isacc t.value then
        pLog .error "Invalid accessor position for function"
      let identifier ←
        if hasFlagN modifier.modifier modInit then
          pure (IdentInfo.mk ⟨0, 0, 0⟩ ⟨0, 0, 0⟩ "init")
        else do
          let identTok? ← expectToken .identifier "after 'fn' in function declaration"
          match identTok? with
          | none => SM.crash
          | some it => pure (IdentInfo.mk it.startLoc it.endLoc it.value)
      let modifier ←
        if (← matchValue "?") then
          pure { modifier with modifier := modifier.modifier ||| modNullable }
        else pure modifier
      _ ← expectValue "(" "after function name in function declaration"
      let parameters ←
        if (← matchValue ")") then pure []
        else do
          let ps ← parseParamLoop fuel
          _ ← expectValue ")" "after function parameters in function declaration"
          pure ps
      let typeIdentifier ←
        if (← matchValue ":") then do
          let tyTok? ← expectToken .identifier "after ':' in function declaration"
          match tyTok? with
          | none => SM.crash
          | some tyTok => parseTypeShape fuel tyTok
        else do
          let isId ← checkToken .identifier
          if isId then do
            pLog .warning "Type annotation missing ':' in function declaration"
            let tyTok? ← expectToken .identifier "after ':' in function declaration"
            match tyTok? with
            | none => SM.crash
            | some tyTok => parseTypeShape fuel tyTok
          else
            pure (Expr.ident ⟨0, 0, 0⟩ ⟨0, 0, 0⟩ "void")
      let body ← parseBlock fuel
      pure (FuncDecl.mk identifier.sLoc body.eLoc identifier typeIdentifier modifier parameters body)

/-- The parameter `do`-`while` loop of `parseFunction`. -/
def parseParamLoop : Nat → SM PState (List VarDecl)
  | 0 => SM.crash
  | fuel + 1 => do
    let param ← parseVariable fuel false false
    if (← matchValue ",") then do
      let rest ← parseParamLoop fuel
      pure (param :: rest)
    else pure [param]

/-- `Parser::parseRecord`. -/
def parseRecord : Nat → SM PState Decl
  | 0 => SM.crash
  | fuel + 1 => do
    _ ← expectValue "rec" ""
    let modifier ← parseModifier fuel
    let identTok? ← expectToken .identifier "after 'rec' in record declaration"
    match identTok? with
    | none => SM.crash
    | some identTok => do
      let identifier : IdentInfo := ⟨identTok.startLoc, identTok.endLoc, identTok.value⟩
      _ ← expectValue "\x7b" "after record name in record declaration"
      let fields ← parseRecordFields fuel
      _ ← expectValue "\x7d" "after record fields in record declaration"
      let typeE := Expr.ident identTok.startLoc identTok.endLoc identTok.value
      let st ← SM.get
      pure (Decl.drec identTok.startLoc st.lastToken.endLoc identifier typeE modifier fields)

/-- The field loop of `parseRecord`. -/
def parseRecordFields : Nat → SM PState (List VarDecl)
  | 0 => SM.crash
  | fuel + 1 => do
    let st ← SM.get
    if pIsEof st then pure []
    else do
      let isEnd ← checkValue "\x7d"
      if isEnd then pure []
      else do
        let field ← parseVariable fuel false true
        let rest ← parseRecordFields fuel
        pure (field :: rest)

/-- `Parser::parseClass`. -/
def parseClass : Nat → SM PState Decl
  | 0 => SM.crash
  | fuel + 1 => do
    _ ← expectValue "cls" ""
    let modifier ← parseModifier fuel
    let identTok? ← expectToken .identifier "after 'class' in class declaration"
    match identTok? with
    | none => SM.crash
    | some identTok => do
      let identifier : IdentInfo := ⟨identTok.startLoc, identTok.endLoc, identTok.value⟩
      _ ← expectValue "\x7b" "after class name in class declaration"
      let (fields, methods) ← parseClassMembers fuel 0 [] []
      _ ← expectValue "\x7d" "after class fields and methods in class declaration"
      let typeE := Expr.ident identTok.startLoc identTok.endLoc identTok.value
      let st ← SM.get
      pure (Decl.dcls identTok.startLoc st.lastToken.endLoc identifier typeE modifier fields methods)

/-- The member loop of `parseClass`: scan ahead over accessors/modifiers;
`fn` next means a method, otherwise a field; anything else bumps the
lookahead offset `i` (which can loop forever on a bare field — fuel
exhaustion then yields `none`). -/
def parseClassMembers : Nat → Nat → List VarDecl → List FuncDecl → SM PState (List VarDecl × List FuncDecl)
  | 0, _, _, _ => SM.crash
  | fuel + 1, i, fields, methods => do
    let st ← SM.get
    if pIsEof st then pure (fields, methods)
    else do
      let isEnd ← checkValue "\x7d"
      if isEnd then pure (fields, methods)
      else do
        match lookF st i with
        | some ti =>
          if isacc ti.value || ismod ti.value then do
            let j := scanAccMod st (st.tokens.length + 1) i
            match lookF st j with
            | some tj =>
              if tj.value == "fn" then do
                SM.modifyS (fun s => { s with index := s.index + i })
                let method ← parseFunction fuel
                parseClassMembers fuel 0 fields (methods ++ [method])
              else do
                SM.modifyS (fun s => { s with index := s.index + i })
                let field ← parseVariable fuel false true
                parseClassMembers fuel 0 (fields ++ [field]) methods
            | none => do
              SM.modifyS (fun s => { s with index := s.index + i })
              let field ← parseVariable fuel false true
              parseClassMembers fuel 0 (fields ++ [field]) methods
          else if ti.value == "fn" then do
            SM.modifyS (fun s => { s with index := s.index + i })
            let method ← parseFunction fuel
            parseClassMembers fuel 0 fields (methods ++ [method])
          else
            parseClassMembers fuel (i + 1) fields methods
        | none =>
          parseClassMembers fuel (i + 1) fields methods

/-- `Parser::parseIf`. -/
def parseIf : Nat → SM PState IfCond
  | 0 => SM.crash
  | fuel + 1 => do
    _ ← expectValue "if" "to start if conditional"
    let condition? ← parseExpression fuel
    let thenBranch ← parseBlock fuel
    if (← matchValue "elif") then do
      let elifs ← parseElifLoop fuel
      let elseBranch? ←
        if (← matchValue "else") then do
          let b ← parseBlock fuel
          pure (some b)
        else pure none
      match condition? with
      | none => SM.crash
      | some cond =>
        let endLoc ← match elseBranch? with
          | some eb => pure eb.eLoc
          | none => match elifs.getLast? with
            | some le => pure le.eLoc
            | none => SM.crash
        pure (IfCond.mk cond.sLoc endLoc cond thenBranch elifs elseBranch?)
    else do
      let elseBranch? ←
        if (← matchValue "else") then do
          let b ← parseBlock fuel
          pure (some b)
        else pure none
      match condition? with
      | none => SM.crash
      | some cond =>
        let endLoc := match elseBranch? with
          | some eb => eb.eLoc
          | none => thenBranch.eLoc
        pure (IfCond.mk cond.sLoc endLoc cond thenBranch [] elseBranch?)

/-- The elif `do`-`while` loop of `parseIf` (entered after the first
`elif` was consumed). -/
def parseElifLoop : Nat → SM PState (List IfCond)
  | 0 => SM.crash
  | fuel + 1 => do
    let elifCondition? ← parseExpression fuel
    let elifThen ← parseBlock fuel
    match elifCondition? with
    | none => SM.crash
    | some ec =>
      let elifNode := IfCond.mk ec.sLoc elifThen.eLoc ec elifThen [] none
      if (← matchValue "elif") then do
        let rest ← parseElifLoop fuel
        pure (elifNode :: rest)
      else pure [elifNode]

/-- `Parser::parseSwitch`: the node's span runs from the scrutinee's start
to `cases.back()->end` — `back()` of an empty case vector is undefined
behaviour, modelled by `getLast?` with failure on `none`. -/
def parseSwitch : Nat → SM PState SwitchCond
  | 0 => SM.crash
  | fuel + 1 => do
    _ ← expectValue "switch" "to start switch conditional"
    let switchExpression? ← parseExpression fuel
    _ ← expectValue "\x7b" "after switch expression in switch conditional"
    let cases ← parseSwitchCases fuel
    _ ← expectValue "\x7d" "to end switch conditional"
    match switchExpression? with
    | none => SM.crash
    | some se =>
      match cases.getLast? with
      | none => SM.crash
      | some lastCase => pure (SwitchCond.mk se.sLoc lastCase.eLoc se cases)

/-- The case loop of `parseSwitch`. -/
def parseSwitchCases : Nat → SM PState (List CaseCond)
  | 0 => SM.crash
  | fuel + 1 => do
    let st ← SM.get
    if pIsEof st then pure []
    else do
      let isEnd ← checkValue "\x7d"
      if isEnd then pure []
      else do
        if (← matchValue "default") then do
          let defaultBlock ← parseBlock fuel
          let c := CaseCond.mk defaultBlock.sLoc defaultBlock.eLoc none defaultBlock
          let rest ← parseSwitchCases fuel
          pure (c :: rest)
        else do
          _ ← expectValue "case" "to start switch case"
          let caseExpression? ← parseExpression fuel
          let caseBlock ← parseBlock fuel
          match caseExpression? with
          | none => SM.crash
          | some ce => do
            let c := CaseCond.mk ce.sLoc caseBlock.eLoc (some ce) caseBlock
            let rest ← parseSwitchCases fuel
            pure (c :: rest)

/-- `Parser::parseWhile`. -/
def parseWhile : Nat → SM PState Stmt
  | 0 => SM.crash
  | fuel + 1 => do
    _ ← expectValue "while" "to start while conditional"
    let condition? ← parseExpression fuel
    let body ← parseBlock fuel
    match condition? with
    | none => SM.crash
    | some c => pure (Stmt.swhile c.sLoc body.eLoc c body)

/-- `Parser::parseFor`: C-style, for-each and range shapes. -/
def parseFor : Nat → SM PState Stmt
  | 0 => SM.crash
  | fuel + 1 => do
    _ ← expectValue "for" "to start for conditional"
    _ ← expectValue "(" "after 'for' in for conditional"
    if (← checkValue "let") then do
      let initializer ← parseVariable fuel false true
      let condition? ← parseExpression fuel
      _ ← expectValue ";" "after for loop condition"
      let increment? ←
        if (← matchValue ")") then pure none
        else do
          let inc? ← parseExpression fuel
          _ ← expectValue ")" "after for loop increment"
          pure inc?
      let body ← parseBlock fuel
      pure (Stmt.sfor initializer.sLoc body.eLoc (some (.dvar initializer)) condition? increment? body)
    else do
      let st ← SM.get
      let isForEach ← do
        let isId ← checkToken .identifier
        if isId then
          match lookF st 1 with
          | none => SM.crash
          | some l1 => pure (l1.value == ":")
        else pure false
      if isForEach then do
        let initializer ← parseVariable fuel false false
        _ ← expectValue "in" "after for-each variable declaration"
        let iterable? ← parseExpression fuel
        _ ← expectValue ")" "after for-each iterable expression"
        let body ← parseBlock fuel
        pure (Stmt.sfor initializer.sLoc body.eLoc (some (.dvar initializer)) none iterable? body)
      else do
        let condition? ← parseExpression fuel
        _ ← expectValue ")" "after for-range condition"
        let body ← parseBlock fuel
        match condition? with
        | none => SM.crash
        | some c => pure (Stmt.sfor c.sLoc body.eLoc none (some c) none body)

/-- `Parser::parseExpression`. -/
def parseExpression : Nat → SM PState (Option Expr)
  | 0 => SM.crash
  | fuel + 1 => parseAssignment fuel

/-- `Parser::parseAssignment` (right-associative `=`). -/
def parseAssignment : Nat → SM PState (Option Expr)
  | 0 => SM.crash
  | fuel + 1 => do
    let expr? ← parseLogicalOr fuel
    if (← matchValue "=") then do
      let right? ← parseExpression fuel
      match expr?, right? with
      | some l, some r => pure (some (.binary l.sLoc r.eLoc l "=" r))
      | _, _ => SM.crash
    else pure expr?

/-- `Parser::parseLogicalOr`. -/
def parseLogicalOr : Nat → SM PState (Option Expr)
  | 0 => SM.crash
  | fuel + 1 => do
    let expr? ← parseLogicalAnd fuel
    parseLogicalOrLoop fuel expr?

/-- The `||` loop of `parseLogicalOr`. -/
def parseLogicalOrLoop : Nat → Option Expr → SM PState (Option Expr)
  | 0, _ => SM.crash
  | fuel + 1, expr? => do
    if (← matchValue "||") then do
      let opTok ← prevToken
      let right? ← parseLogicalAnd fuel
      match expr?, right? with
      | some l, some r => parseLogicalOrLoop fuel (some (.binary l.sLoc r.eLoc l opTok.value r))
      | _, _ => SM.crash
    else pure expr?

/-- `Parser::parseLogicalAnd`. -/
def parseLogicalAnd : Nat → SM PState (Option Expr)
  | 0 => SM.crash
  | fuel + 1 => do
    let expr? ← parseEquality fuel
    parseLogicalAndLoop fuel expr?

/-- The `&&` loop of `parseLogicalAnd`. -/
def parseLogicalAndLoop : Nat → Option Expr → SM PState (Option Expr)
  | 0, _ => SM.crash
  | fuel + 1, expr? => do
    if (← matchValue "&&") then do
      let opTok ← prevToken
      let right? ← parseEquality fuel
      match expr?, right? with
      | some l, some r => parseLogicalAndLoop fuel (some (.binary l.sLoc r.eLoc l opTok.value r))
      | _, _ => SM.crash
    else pure expr?

/-- `Parser::parseEquality`. -/
def parseEquality : Nat → SM PState (Option Expr)
  | 0 => SM.crash
  | fuel + 1 => do
    let expr? ← parseComparison fuel
    parseEqualityLoop fuel expr?

/-- The `==`/`!=` loop of `parseEquality`. -/
def parseEqualityLoop : Nat → Option Expr → SM PState (Option Expr)
  | 0, _ => SM.crash
  | fuel + 1, expr? => do
    let m1 ← matchValue "=="
    let matched ← if m1 then pure true else matchValue "!="
    if matched then do
      let opTok ← prevToken
      let right? ← parseComparison fuel
      match expr?, right? with
      | some l, some r => parseEqualityLoop fuel (some (.binary l.sLoc r.eLoc l opTok.value r))
      | _, _ => SM.crash
    else pure expr?

/-- `Parser::parseComparison`. -/
def parseComparison : Nat → SM PState (Option Expr)
  | 0 => SM.crash
  | fuel + 1 => do
    let expr? ← parseTerm fuel
    parseComparisonLoop fuel expr?

/-- The comparison/range-operator loop of `parseComparison`. -/
def parseComparisonLoop : Nat → Option Expr → SM PState (Option Expr)
  | 0, _ => SM.crash
  | fuel + 1, expr? => do
    let m1 ← matchValue "<"
    let m2 ← if m1 then pure true else matchValue ">"
    let m3 ← if m2 then pure true else matchValue "<="
    let m4 ← if m3 then pure true else matchValue ">="
    let m5 ← if m4 then pure true else matchValue ".."
    let matched ← if m5 then pure true else matchValue "..."
    if matched then do
      let opTok ← prevToken
      let right? ← parseTerm fuel
      match expr?, right? with
      | some l, some r => parseComparisonLoop fuel (some (.binary l.sLoc r.eLoc l opTok.value r))
      | _, _ => SM.crash
    else pure expr?

/-- `Parser::parseTerm`. -/
def parseTerm : Nat → SM PState (Option Expr)
  | 0 => SM.crash
  | fuel + 1 => do
    let expr? ← parseFactor fuel
    parseTermLoop fuel expr?

/-- The `+`/`-` loop of `parseTerm`. -/
def parseTermLoop : Nat → Option Expr → SM PState (Option Expr)
  | 0, _ => SM.crash
  | fuel + 1, expr? => do
    let m1 ← matchValue "+"
    let matched ← if m1 then pure true else matchValue "-"
    if matched then do
      let opTok ← prevToken
      let right? ← parseFactor fuel
      match expr?, right? with
      | some l, some r => parseTermLoop fuel (some (.binary l.sLoc r.eLoc l opTok.value r))
      | _, _ => SM.crash
    else pure expr?

/-- `Parser::parseFactor`. -/
def parseFactor : Nat → SM PState (Option Expr)
  | 0 => SM.crash
  | fuel + 1 => do
    let expr? ← parseUnary fuel
    parseFactorLoop fuel expr?

/-- The `*`/`/`/`%` loop of `parseFactor`. -/
def parseFactorLoop : Nat → Option Expr → SM PState (Option Expr)
  | 0, _ => SM.crash
  | fuel + 1, expr? => do
    let m1 ← matchValue "*"
    let m2 ← if m1 then pure true else matchValue "/"
    let matched ← if m2 then pure true else matchValue "%"
    if matched then do
      let opTok ← prevToken
      let right? ← parseUnary fuel
      match expr?, right? with
      | some l, some r => parseFactorLoop fuel (some (.binary l.sLoc r.eLoc l opTok.value r))
      | _, _ => SM.crash
    else pure expr?

/-- `Parser::parseUnary` (prefix `!`, `-`). -/
def parseUnary : Nat → SM PState (Option Expr)
  | 0 => SM.crash
  | fuel + 1 => do
    let m1 ← matchValue "!"
    let matched ← if m1 then pure true else matchValue "-"
    if matched then do
      let opTok ← prevToken
      let right? ← parseUnary fuel
      match right? with
      | none => SM.crash
      | some r => pure (some (.unary opTok.startLoc r.eLoc opTok.value r))
    else parsePostfixChain fuel

/-- `Parser::parsePostfix` (renamed): primary followed by postfix forms. -/
def parsePostfixChain : Nat → SM PState (Option Expr)
  | 0 => SM.crash
  | fuel + 1 => do
    let expr? ← parsePrimary fuel
    parsePostfixLoop fuel expr?

/-- The postfix loop: calls, `++`/`--`, attribute access, indexing. -/
def parsePostfixLoop : Nat → Option Expr → SM PState (Option Expr)
  | 0, _ => SM.crash
  | fuel + 1, expr? => do
    if (← matchValue "(") then do
      let args ←
        if (← checkValue ")") then pure []
        else parseArgsLoop fuel
      let rightParen? ← expectValue ")" "after function call arguments"
      match expr?, rightParen? with
      | some e, some rp => parsePostfixLoop fuel (some (.call e.sLoc rp.endLoc e args))
      | _, _ => SM.crash
    else do
      let m1 ← matchValue "++"
      let mIncDec ← if m1 then pure true else matchValue "--"
      if mIncDec then do
        let opTok ← prevToken
        match expr? with
        | some e => parsePostfixLoop fuel (some (.unary e.sLoc opTok.endLoc opTok.value e))
        | none => SM.crash
      else if (← matchValue ".") then do
        let attribute? ← parseExpression fuel
        match expr?, attribute? with
        | some e, some a => parsePostfixLoop fuel (some (.attrE e.sLoc a.eLoc e a))
        | _, _ => SM.crash
      else if (← matchValue "[") then do
        let index? ← parseExpression fuel
        _ ← expectValue "]" "after index expression"
        match expr?, index? with
        | some e, some i => parsePostfixLoop fuel (some (.indexE e.sLoc i.eLoc e i))
        | _, _ => SM.crash
      else pure expr?

/-- The argument `do`-`while` loop of a call: possibly-null expressions
are pushed as-is. -/
def parseArgsLoop : Nat → SM PState (List (Option Expr))
  | 0 => SM.crash
  | fuel + 1 => do
    let arg? ← parseExpression fuel
    if (← matchValue ",") then do
      let rest ← parseArgsLoop fuel
      pure (arg? :: rest)
    else pure [arg?]

/-- The element `do`-`while` loop of an array literal. -/
def parseElemsLoop : Nat → SM PState (List (Option Expr))
  | 0 => SM.crash
  | fuel + 1 => do
    let element? ← parseExpression fuel
    if (← matchValue ",") then do
      let rest ← parseElemsLoop fuel
      pure (element? :: rest)
    else pure [element?]

/-- `Parser::parsePrimary`: literals, `this`, identifiers, parenthesised
expressions, array literals; otherwise report, advance one token and
return the null expression. -/
def parsePrimary : Nat → SM PState (Option Expr)
  | 0 => SM.crash
  | fuel + 1 => do
    if (← matchValue "true") then do
      let tok ← prevToken
      return some (.literal tok.startLoc tok.endLoc "true" .boolean)
    if (← matchValue "false") then do
      let tok ← prevToken
      return some (.literal tok.startLoc tok.endLoc "false" .boolean)
    if (← matchValue "this") then do
      let tok ← prevToken
      return some (.ident tok.startLoc tok.endLoc tok.value)
    if (← matchToken .integer) then do
      let tok ← prevToken
      return some (.literal tok.startLoc tok.endLoc tok.value .integer)
    if (← matchToken .float) then do
      let tok ← prevToken
      return some (.literal tok.startLoc tok.endLoc tok.value .float)
    if (← matchToken .string) then do
      let tok ← prevToken
      return some (.literal tok.startLoc tok.endLoc tok.value .string)
    if (← matchToken .character) then do
      let tok ← prevToken
      return some (.literal tok.startLoc tok.endLoc tok.value .character)
    if (← matchToken .identifier) then do
      let tok ← prevToken
      return some (.ident tok.startLoc tok.endLoc tok.value)
    if (← matchValue "(") then do
      let expr? ← parseExpression fuel
      _ ← expectValue ")" "after expression"
      return expr?
    if (← matchValue "[") then do
      let elements ←
        if (← checkValue "]") then pure []
        else parseElemsLoop fuel
      let rightBracket? ← expectValue "]" "after array elements"
      let st ← SM.get
      match rightBracket? with
      | none => SM.crash
      | some rb => return some (.arrayE st.lastToken.startLoc rb.endLoc elements)
    let st ← SM.get
    if pIsEof st || (match peekF st with | some t => t.value == "" | none => false) then
      pure none
    else do
      pLog .error "Unexpected token"
      _ ← pAdvance
      pure none

end

/-- `Parser::parse`: lex the source, then parse a program starting at
index 0 with a default-constructed last token and an empty log. -/
def parseSource (fuel : Nat) (source : String) : Option (Program × PState) :=
  parseProgram fuel ⟨(lex source).1, 0, Token.defaultTok, []⟩

/-! ### Type model (`ml/sema/type.h`) -/

/-- Type kinds, mirroring `ml::sema::TypeKind`. -/
inductive TypeKind where
  | none
  | void
  | null
  | boolean
  | i8
  | i16
  | i32
  | i64
  | i128
  | u8
  | u16
  | u32
  | u64
  | u128
  | f16
  | f32
  | f64
  | f128
  | string
  | character
  | array
  | classKind
  | recordKind
  | variable
  | function
deriving DecidableEq, Repr

/-- A semantic type as it flows through the analyzer by value: the sliced
`Type` base (kind and name) of the `ml::sema::Type` hierarchy. -/
structure Ty where
  kind : TypeKind
  name : String
deriving DecidableEq, Repr

/-- `Type::isValid`: non-empty name and a kind other than None. -/
def Ty.isValid (t : Ty) : Bool :=
  t.name != "" && t.kind != TypeKind.none

/-- `Type::size` (byte width; 0 for non-primitive kinds). -/
def Ty.size (t : Ty) : Nat :=
  match t.kind with
  | .i8 | .u8 | .boolean | .character => 1
  | .i16 | .u16 => 2
  | .i32 | .u32 | .f32 => 4
  | .i64 | .u64 | .f64 => 8
  | .i128 | .u128 | .f128 => 16
  | _ => 0

/-- `Type::isSimilarTo`: kind equality. -/
def Ty.isSimilarTo (t other : Ty) : Bool :=
  t.kind == other.kind

/-- `Type::isInteger`. -/
def Ty.isInteger (t : Ty) : Bool :=
  t.kind == TypeKind.i8 || t.kind == TypeKind.i16 || t.kind == TypeKind.i32 ||
  t.kind == TypeKind.i64 || t.kind == TypeKind.i128 || t.kind == TypeKind.u8 ||
  t.kind == TypeKind.u16 || t.kind == TypeKind.u32 || t.kind == TypeKind.u64 ||
  t.kind == TypeKind.u128

/-- `Type::isFloatingPoint`. -/
def Ty.isFloatingPoint (t : Ty) : Bool :=
  t.kind == TypeKind.f16 || t.kind == TypeKind.f32 || t.kind == TypeKind.f64 ||
  t.kind == TypeKind.f128

/-- `Type::isNumeric`. -/
def Ty.isNumeric (t : Ty) : Bool :=
  t.isInteger || t.isFloatingPoint

/-- `Type::isPointer`. -/
def Ty.isPointer (t : Ty) : Bool :=
  t.kind == TypeKind.array || t.kind == TypeKind.classKind ||
  t.kind == TypeKind.recordKind || t.kind == TypeKind.string

/-- `Type::isTruthy`: every kind except None, Void and Null. -/
def Ty.isTruthy (t : Ty) : Bool :=
  t.kind != TypeKind.none && t.kind != TypeKind.void && t.kind != TypeKind.null

/-- `Type::isNone`. -/
def Ty.isNone (t : Ty) : Bool := t.kind == TypeKind.none

/-- `Type::isVoid`. -/
def Ty.isVoid (t : Ty) : Bool := t.kind == TypeKind.void

/-- `Type::isNull`. -/
def Ty.isNull (t : Ty) : Bool := t.kind == TypeKind.null

/-- `Type::isPrimitive`: all numeric kinds plus Boolean and Character. -/
def Ty.isPrimitive (t : Ty) : Bool :=
  t.isInteger || t.isFloatingPoint || t.kind == TypeKind.boolean ||
  t.kind == TypeKind.character

/-- `Type::operator==`: type equality compares names. -/
def tyEq (a b : Ty) : Bool :=
  a.name == b.name

/-- The primitive singleton `none_ty`. -/
def noneTy : Ty := ⟨.none, "none"⟩
/-- The primitive singleton `void_ty`. -/
def voidTy : Ty := ⟨.void, "void"⟩
/-- The primitive singleton `null_ty`. -/
def nullTy : Ty := ⟨.null, "null"⟩
/-- The primitive singleton `bool_ty`. -/
def boolTy : Ty := ⟨.boolean, "bool"⟩
/-- The primitive singleton `i8_ty`. -/
def i8Ty : Ty := ⟨.i8, "i8"⟩
/-- The primitive singleton `i16_ty`. -/
def i16Ty : Ty := ⟨.i16, "i16"⟩
/-- The primitive singleton `i32_ty`. -/
def i32Ty : Ty := ⟨.i32, "i32"⟩
/-- The primitive singleton `i64_ty`. -/
def i64Ty : Ty := ⟨.i64, "i64"⟩
/-- The primitive singleton `i128_ty`. -/
def i128Ty : Ty := ⟨.i128, "i128"⟩
/-- The primitive singleton `u8_ty`. -/
def u8Ty : Ty := ⟨.u8, "u8"⟩
/-- The primitive singleton `u16_ty`. -/
def u16Ty : Ty := ⟨.u16, "u16"⟩
/-- The primitive singleton `u32_ty`. -/
def u32Ty : Ty := ⟨.u32, "u32"⟩
/-- The primitive singleton `u64_ty`. -/
def u64Ty : Ty := ⟨.u64, "u64"⟩
/-- The primitive singleton `u128_ty`. -/
def u128Ty : Ty := ⟨.u128, "u128"⟩
/-- The primitive singleton `f16_ty`. -/
def f16Ty : Ty := ⟨.f16, "f16"⟩
/-- The primitive singleton `f32_ty`. -/
def f32Ty : Ty := ⟨.f32, "f32"⟩
/-- The primitive singleton `f64_ty`. -/
def f64Ty : Ty := ⟨.f64, "f64"⟩
/-- The primitive singleton `f128_ty`. -/
def f128Ty : Ty := ⟨.f128, "f128"⟩
/-- The primitive singleton `char_ty`. -/
def charTy : Ty := ⟨.character, "char"⟩
/-- The primitive singleton `string_ty` (named "str"). -/
def stringTy : Ty := ⟨.string, "str"⟩

/-- Arithmetic type promotion (`promoteTypes`): same kind wins, otherwise
wider float, wider integer, or the float of a mixed pair; anything else
promotes to `none_ty`. -/
def promoteTypes (a b : Ty) : Ty :=
  if a.isSimilarTo b then a
  else if a.isFloatingPoint && b.isFloatingPoint then
    if a.size ≥ b.size then a else b
  else if a.isInteger && b.isInteger then
    if a.size ≥ b.size then a else b
  else if a.isFloatingPoint && b.isInteger then a
  else if a.isInteger && b.isFloatingPoint then b
  else noneTy

/-- Assignability (`canAssignType to from`): same kind, int-to-float, or
integer widening with `sizeof(from) ≤ sizeof(to)`. -/
def canAssignType (toT fromT : Ty) : Bool :=
  if toT.isSimilarTo fromT then true
  else if toT.isFloatingPoint && fromT.isInteger then true
  else if toT.isInteger && fromT.isInteger then
    fromT.size ≤ toT.size
  else false

/-! ### Semantic entities and the scope chain
(`ml/sema/{var,func,rec,cls,scope}.h`) -/

/-- `ml::sema::Variable`: name, element type, accessor, modifier bits. -/
structure SVar where
  name : String
  type : Ty
  accessor : Accessor
  modifier : Nat
deriving DecidableEq, Repr

/-- The default-constructed `Variable()`. -/
def SVar.defaultVar : SVar := ⟨"", noneTy, .Public, 0⟩

/-- `Variable::isValid`: non-empty name. -/
def SVar.isValid (v : SVar) : Bool := v.name != ""

/-- `ml::sema::Function`: name, return type, parameters, access,
modifier. -/
structure SFun where
  name : String
  return_type : Ty
  parameters : List SVar
  access : Accessor
  modifier : Nat
deriving DecidableEq, Repr

/-- The default-constructed `Function()`. -/
def SFun.defaultFun : SFun := ⟨"", noneTy, [], .Public, 0⟩

/-- `Function::isValid`: non-empty name. -/
def SFun.isValid (f : SFun) : Bool := f.name != ""

/-- `Function::isValidArguments`: arity must match and each argument must
be kind-similar to its parameter or both numeric. -/
def SFun.isValidArguments (f : SFun) (argTypes : List Ty) : Bool :=
  if argTypes.length != f.parameters.length then false
  else (argTypes.zip f.parameters).all fun ap =>
    ap.1.isSimilarTo ap.2.type || (ap.1.isNumeric && ap.2.type.isNumeric)

/-- `ml::sema::Record`: name and ordered field list. -/
structure SRec where
  name : String
  fields : List SVar
deriving DecidableEq, Repr

/-- The default-constructed `Record()`. -/
def SRec.defaultRec : SRec := ⟨"", []⟩

/-- `Record::hasField`: the first field with the name decides, via the
accessibility rule. -/
def SRec.hasField (r : SRec) (n : String) (access : Accessor) : Bool :=
  match r.fields.find? (fun f => f.name == n) with
  | some f => canAccess f.accessor access
  | none => false

/-- `Record::getField`: found but inaccessible throws (`none`); not found
yields the default `Variable()`. -/
def SRec.getField (r : SRec) (n : String) (access : Accessor) : Option SVar :=
  match r.fields.find? (fun f => f.name == n) with
  | some f => if canAccess f.accessor access then some f else none
  | none => some SVar.defaultVar

/-- `ml::sema::Class`: record fields plus methods. -/
structure SCls where
  name : String
  fields : List SVar
  methods : List SFun
deriving DecidableEq, Repr

/-- The default-constructed `Class()`. -/
def SCls.defaultCls : SCls := ⟨"", [], []⟩

/-- `Class::hasField` (inherited from `Record`). -/
def SCls.hasField (c : SCls) (n : String) (access : Accessor) : Bool :=
  match c.fields.find? (fun f => f.name == n) with
  | some f => canAccess f.accessor access
  | none => false

/-- `Class::getField` (inherited from `Record`): throw on access denial. -/
def SCls.getField (c : SCls) (n : String) (access : Accessor) : Option SVar :=
  match c.fields.find? (fun f => f.name == n) with
  | some f => if canAccess f.accessor access then some f else none
  | none => some SVar.defaultVar

/-- `Class::hasMethod`. -/
def SCls.hasMethod (c : SCls) (n : String) (access : Accessor) : Bool :=
  match c.methods.find? (fun m => m.name == n) with
  | some m => canAccess m.access access
  | none => false

/-- `Class::getMethod`: throw (`none`) on access denial; the default
`Function()` when not found. -/
def SCls.getMethod (c : SCls) (n : String) (access : Accessor) : Option SFun :=
  match c.methods.find? (fun m => m.name == n) with
  | some m => if canAccess m.access access then some m else none
  | none => some SFun.defaultFun

/-- Scope kinds (`ml::sema::ScopeKind`), a plain C++ enum whose values are
used as a bitmask through `ENABLE_BITMASKS`. -/
inductive ScopeKind where
  | global
  | block
  | function
  | loop
  | classK
  | record
deriving DecidableEq, Repr

/-- The underlying integer of each `ScopeKind` enumerator: Global = 0,
Block = 1, Function = 2, Loop = 3, Class = 4, Record = 5. -/
def ScopeKind.val : ScopeKind → Nat
  | .global => 0
  | .block => 1
  | .function => 2
  | .loop => 3
  | .classK => 4
  | .record => 5

/-- The primitive list every scope holds (`Scope::primitives`). -/
def primsList : List Ty :=
  [i8Ty, i16Ty, i32Ty, i64Ty, i128Ty,
   u8Ty, u16Ty, u32Ty, u64Ty, u128Ty,
   f16Ty, f32Ty, f64Ty, f128Ty, boolTy,
   charTy, stringTy, voidTy, nullTy]

/-- A scope (`ml::sema::Scope`): name, OR-composed kind bitmask, owned
entity lists and the parent link. -/
inductive Scope where
  | mk (name : String) (kind : Nat) (vars : List SVar)
      (fns : List SFun) (classes : List SCls) (records : List SRec)
      (parent : Option Scope)

/-- Kind bitmask of a scope. -/
def Scope.kind : Scope → Nat
  | .mk _ k _ _ _ _ _ => k

/-- Parent of a scope (`Scope::getParent`). -/
def Scope.parent : Scope → Option Scope
  | .mk _ _ _ _ _ _ p => p

/-- `Scope::hasVariable`: current list first, then the parent chain. -/
def Scope.hasVariable : Scope → String → Bool
  | .mk _ _ vars _ _ _ parent, n =>
    if vars.any (fun v => v.name == n) then true
    else match parent with
      | some p => p.hasVariable n
      | none => false

/-- `Scope::hasFunction`. -/
def Scope.hasFunction : Scope → String → Bool
  | .mk _ _ _ fns _ _ parent, n =>
    if fns.any (fun f => f.name == n) then true
    else match parent with
      | some p => p.hasFunction n
      | none => false

/-- `Scope::hasClass`. -/
def Scope.hasClassS : Scope → String → Bool
  | .mk _ _ _ _ cls _ parent, n =>
    if cls.any (fun c => c.name == n) then true
    else match parent with
      | some p => p.hasClassS n
      | none => false

/-- `Scope::hasRecord`. -/
def Scope.hasRecordS : Scope → String → Bool
  | .mk _ _ _ _ _ recs parent, n =>
    if recs.any (fun r => r.name == n) then true
    else match parent with
      | some p => p.hasRecordS n
      | none => false

/-- `Scope::getVariable`: first match walking outwards; the default
`Variable()` when absent. -/
def Scope.getVariable : Scope → String → SVar
  | .mk _ _ vars _ _ _ parent, n =>
    match vars.find? (fun v => v.name == n) with
    | some v => v
    | none => match parent with
      | some p => p.getVariable n
      | none => SVar.defaultVar

/-- `Scope::getFunction`. -/
def Scope.getFunction : Scope → String → SFun
  | .mk _ _ _ fns _ _ parent, n =>
    match fns.find? (fun f => f.name == n) with
    | some f => f
    | none => match parent with
      | some p => p.getFunction n
      | none => SFun.defaultFun

/-- `Scope::getClass`. -/
def Scope.getClassS : Scope → String → SCls
  | .mk _ _ _ _ cls _ parent, n =>
    match cls.find? (fun c => c.name == n) with
    | some c => c
    | none => match parent with
      | some p => p.getClassS n
      | none => SCls.defaultCls

/-- `Scope::getRecord`. -/
def Scope.getRecordS : Scope → String → SRec
  | .mk _ _ _ _ _ recs parent, n =>
    match recs.find? (fun r => r.name == n) with
    | some r => r
    | none => match parent with
      | some p => p.getRecordS n
      | none => SRec.defaultRec

/-- `Scope::hasType`: primitives, then classes and records (through the
whole chain), then the parent. -/
def Scope.hasType : Scope → String → Bool
  | sc@(.mk _ _ _ _ _ _ parent), n =>
    if primsList.any (fun p => p.name == n) then true
    else if sc.hasClassS n || sc.hasRecordS n then true
    else match parent with
      | some p => p.hasType n
      | none => false

/-- `Scope::getType`: the resolved entity sliced to its `Type` base
(kind and name); the default `Type()` when nothing resolves. -/
def Scope.getType : Scope → String → Ty
  | sc@(.mk _ _ _ _ _ _ parent), n =>
    match primsList.find? (fun p => p.name == n) with
    | some p => p
    | none =>
      if sc.hasClassS n then ⟨.classKind, (sc.getClassS n).name⟩
      else if sc.hasRecordS n then ⟨.recordKind, (sc.getRecordS n).name⟩
      else match parent with
        | some p => p.getType n
        | none => ⟨.none, ""⟩

/-- `Scope::isValidType`: primitives, Void, Null, and resolvable
class/record names. -/
def Scope.isValidType (sc : Scope) (t : Ty) : Bool :=
  if t.isPrimitive || t.isVoid || t.isNull then true
  else if t.kind == TypeKind.classKind then sc.hasClassS t.name
  else if t.kind == TypeKind.recordKind then sc.hasRecordS t.name
  else false

/-! ### Analyzer (`ml/sema/analysis.h`, analysis.cpp) -/

/-- Analyzer state: the current scope (null before `analyze` opens the
global scope), the accumulated `errors` vector, and the diagnostics that
the analyzer only prints with `err.log()` instead of accumulating. -/
structure AState where
  scope : Option Scope
  errors : List Err
  logged : List Err

/-- Append to the analyzer's `errors` vector. -/
def pushErrState (st : AState) (e : Err) : AState :=
  { st with errors := st.errors ++ [e] }

/-- `this->errors.push_back(...)`. -/
def pushErr (lvl : ErrLevel) (d : String) : SM AState Unit := fun st =>
  some ((), pushErrState st ⟨lvl, d⟩)

/-- A diagnostic only printed via `err.log()`. -/
def pushLogged (lvl : ErrLevel) (d : String) : SM AState Unit := fun st =>
  some ((), { st with logged := st.logged ++ [⟨lvl, d⟩] })

/-- `Analyzer::enterScope`: the child's kind is the bitwise OR of the
parent's kind with the entered kind. -/
def enterScope (name : String) (kind : Nat) : SM AState Unit := fun st =>
  match st.scope with
  | some cur =>
    some ((), { st with scope := some (Scope.mk name (cur.kind ||| kind) [] [] [] [] (some cur)) })
  | none =>
    some ((), { st with scope := some (Scope.mk name kind [] [] [] [] none) })

/-- `Analyzer::exitScope`. -/
def exitScope : SM AState Unit := fun st =>
  match st.scope with
  | some cur => some ((), { st with scope := cur.parent })
  | none => some ((), st)

/-- `current_scope->addVariable` (null dereference when no scope). -/
def addVariableA (v : SVar) : SM AState Unit := fun st =>
  match st.scope with
  | some (.mk n k vars fns cls recs par) =>
    some ((), { st with scope := some (.mk n k (vars ++ [v]) fns cls recs par) })
  | none => none

/-- `current_scope->addFunction`. -/
def addFunctionA (f : SFun) : SM AState Unit := fun st =>
  match st.scope with
  | some (.mk n k vars fns cls recs par) =>
    some ((), { st with scope := some (.mk n k vars (fns ++ [f]) cls recs par) })
  | none => none

/-- `current_scope->addClass`. -/
def addClassA (c : SCls) : SM AState Unit := fun st =>
  match st.scope with
  | some (.mk n k vars fns cls recs par) =>
    some ((), { st with scope := some (.mk n k vars fns (cls ++ [c]) recs par) })
  | none => none

/-- `current_scope->addRecord`. -/
def addRecordA (r : SRec) : SM AState Unit := fun st =>
  match st.scope with
  | some (.mk n k vars fns cls recs par) =>
    some ((), { st with scope := some (.mk n k vars fns cls (recs ++ [r]) par) })
  | none => none

/-- `Analyzer::inferLiteral`: literal kinds map to fixed primitives. -/
def inferLiteralTy : LiteralType → Ty
  | .integer => i64Ty
  | .float => f64Ty
  | .string => stringTy
  | .character => charTy
  | .boolean => boolTy
  | .nullLit => nullTy

/-- `Analyzer::inferIdentifier`: variable, function, class, record, then
type lookup; each non-variable entity is returned sliced to its `Type`
base.  An unresolved name reports "Undeclared identifier". -/
def inferIdentifier (n : String) : SM AState Ty := fun st =>
  match st.scope with
  | none => none
  | some sc =>
    if sc.hasVariable n then some ((sc.getVariable n).type, st)
    else if sc.hasFunction n then some (⟨.function, (sc.getFunction n).name⟩, st)
    else if sc.hasClassS n then some (⟨.classKind, (sc.getClassS n).name⟩, st)
    else if sc.hasRecordS n then some (⟨.recordKind, (sc.getRecordS n).name⟩, st)
    else if sc.hasType n then some (sc.getType n, st)
    else some (noneTy, pushErrState st ⟨.error, "Undeclared identifier: " ++ n⟩)

/-- The `dynamic_cast<IdentifierExpression *>` view of an expression;
`ArrayIdentifierExpression` is a subclass, so it also casts. -/
def exprIdentName : Expr → Option String
  | .ident _ _ n => some n
  | .arrayIdent _ _ n _ => some n
  | _ => none

/-- The `dynamic_cast<CallExpression *>` view of an expression. -/
def exprAsCall : Expr → Option (Expr × List (Option Expr))
  | .call _ _ callee args => some (callee, args)
  | _ => none

mutual

/-- `Analyzer::inferExpression`: `dynamic_cast` dispatch.  An
`ArrayIdentifierExpression` is caught by the earlier
`IdentifierExpression` cast, so `inferArrayIdentifier` is unreachable
and the `arrayIdent` node routes to `inferIdentifier`. -/
def inferExpression : Nat → Expr → SM AState Ty
  | 0, _ => SM.crash
  | fuel + 1, e =>
    match e with
    | .binary _ _ l _ r => do
      let leftType ← inferExpression fuel l
      let rightType ← inferExpression fuel r
      pure (promoteTypes leftType rightType)
    | .unary _ _ _ operand => inferExpression fuel operand
    | .literal _ _ _ lt => pure (inferLiteralTy lt)
    | .ident _ _ n => inferIdentifier n
    | .arrayIdent _ _ n _ => inferIdentifier n
    | .indexE _ _ arr idx => do
      let arrayType ← inferExpression fuel arr
      let indexType ← inferExpression fuel idx
      if arrayType.kind == TypeKind.array && indexType.isInteger then
        pure arrayType
      else
        pure noneTy
    | .arrayE _ _ elements =>
      match elements with
      | [] => pure noneTy
      | firstE :: _ =>
        match firstE with
        | none => SM.crash
        | some fe => do
          let elementType ← inferExpression fuel fe
          pure ⟨.array, "array" ++ elementType.name⟩
    | .call _ _ callee args => inferCall fuel callee args
    | .attrE _ _ obj attrExpr => inferAttribute fuel obj attrExpr

/-- Argument/element type collection: each stored pointer is dereferenced
(`*arg`), so a null entry is undefined behaviour. -/
def inferArgTypes : Nat → List (Option Expr) → SM AState (List Ty)
  | 0, _ => SM.crash
  | _fuel + 1, [] => pure []
  | _fuel + 1, none :: _ => SM.crash
  | fuel + 1, some a :: rest => do
    let t ← inferExpression fuel a
    let ts ← inferArgTypes fuel rest
    pure (t :: ts)

/-- `Analyzer::inferCall`.  For a Function callee,
`static_cast<Function>(callee_type)` resolves through
`Type::operator std::string` to the `Function(name)` constructor, so the
checked signature has no parameters and return type `none_ty`.  Note the
fall-through to "Called function does not exist." after an
invalid-arguments report. -/
def inferCall : Nat → Expr → List (Option Expr) → SM AState Ty
  | 0, _, _ => SM.crash
  | fuel + 1, callee, args => do
    let calleeType ← inferExpression fuel callee
    if calleeType.kind == TypeKind.function then do
      let paramTypes ← inferArgTypes fuel args
      let func : SFun := ⟨calleeType.name, noneTy, [], .Public, 0⟩
      if func.isValidArguments paramTypes then
        pure func.return_type
      else do
        pushErr .error "Function called with invalid arguments."
        pushErr .error "Called function does not exist."
        pure noneTy
    else if calleeType.kind == TypeKind.classKind then do
      let st ← SM.get
      match st.scope with
      | none => SM.crash
      | some sc => do
        let cls := sc.getClassS calleeType.name
        let paramTypes ← inferArgTypes fuel args
        if !(cls.hasMethod "init" .Public) then do
          pushErr .error ("Class has no accessible constructor: " ++ cls.name)
          pure noneTy
        else
          match cls.getMethod "init" .Public with
          | none => SM.crash
          | some constructorF =>
            if !constructorF.isValid then do
              pushErr .error ("Class constructor is not accessible: " ++ cls.name)
              pure noneTy
            else if constructorF.isValidArguments paramTypes then
              pure ⟨.classKind, cls.name⟩
            else do
              pushErr .error ("Invalid constructor arguments for class: " ++ cls.name)
              pure noneTy
    else do
      pushErr .error "Called function does not exist."
      pure noneTy

/-- `Analyzer::inferAttribute`. -/
def inferAttribute : Nat → Expr → Expr → SM AState Ty
  | 0, _, _ => SM.crash
  | fuel + 1, obj, attrExpr => do
    let objectType ← inferExpression fuel obj
    if objectType.kind == TypeKind.classKind then do
      let st ← SM.get
      match st.scope with
      | none => SM.crash
      | some sc => do
        let cls := sc.getClassS objectType.name
        match exprIdentName attrExpr with
        | some an =>
          if cls.hasField an .Public then
            match cls.getField an .Public with
            | none => SM.crash
            | some field => pure field.type
          else do
            pushErr .error ("Unknown attribute: " ++ an)
            pure noneTy
        | none =>
          match exprAsCall attrExpr with
          | some (calleeE, callArgs) =>
            match exprIdentName calleeE with
            | some mn =>
              if cls.hasMethod mn .Public then
                match cls.getMethod mn .Public with
                | none => SM.crash
                | some method => do
                  let argTypes ← inferArgTypes fuel callArgs
                  if method.isValidArguments argTypes then
                    pure method.return_type
                  else do
                    pushErr .error "Method called with invalid arguments."
                    pure noneTy
              else do
                pushErr .error ("Unknown method: " ++ mn)
                pure noneTy
            | none => do
              pushErr .error "Unknown method attribute expression."
              pure noneTy
          | none => do
            pushErr .error "Unknown attribute type"
            pure noneTy
    else if objectType.kind == TypeKind.recordKind then do
      let st ← SM.get
      match st.scope with
      | none => SM.crash
      | some sc => do
        let record := sc.getRecordS objectType.name
        match exprIdentName attrExpr with
        | some an =>
          if record.hasField an .Public then
            match record.getField an .Public with
            | none => SM.crash
            | some field => pure field.type
          else do
            pushErr .error ("Unknown attribute: " ++ an)
            pushErr .error "Record has no accessible attribute."
            pure noneTy
        | none => do
          pushErr .error "Record has no accessible attribute."
          pure noneTy
    else
      pure noneTy

end

/-- `Analyzer::declareVariable`: resolve the declared type, report it if
invalid, register the variable and return the result of looking its name
up again. -/
def declareVariable (fuel : Nat) (d : VarDecl) : SM AState SVar := do
  let varType ← inferExpression fuel d.typeE
  if !varType.isValid then
    pushErr .error ("Invalid type for variable declaration: " ++ d.identifier.name)
  addVariableA ⟨d.identifier.name, varType, d.modifier.accessor, d.modifier.modifier⟩
  let st ← SM.get
  match st.scope with
  | none => SM.crash
  | some sc => pure (sc.getVariable d.identifier.name)

/-- The parameter-resolution loop of `Analyzer::declareFunction`. -/
def declareFunctionParams (fuel : Nat) : List VarDecl → SM AState (List SVar)
  | [] => pure []
  | p :: rest => do
    let paramType ← inferExpression fuel p.typeE
    if !paramType.isValid then
      pushErr .error ("Invalid type for function parameter: " ++ p.identifier.name)
    let v : SVar := ⟨p.identifier.name, paramType, p.modifier.accessor, p.modifier.modifier⟩
    let vs ← declareFunctionParams fuel rest
    pure (v :: vs)

/-- `Analyzer::declareFunction`. -/
def declareFunction (fuel : Nat) (f : FuncDecl) : SM AState SFun := do
  match f with
  | .mk _ _ identifier typeE modifier parameters _ => do
    let returnType ← inferExpression fuel typeE
    if !returnType.isValid then
      pushErr .error ("Invalid return type for function declaration: " ++ identifier.name)
    let params ← declareFunctionParams fuel parameters
    addFunctionA ⟨identifier.name, returnType, params, modifier.accessor, modifier.modifier⟩
    let st ← SM.get
    match st.scope with
    | none => SM.crash
    | some sc => pure (sc.getFunction identifier.name)

/-- The field-resolution loop of `declareClass`/`declareRecord`. -/
def declareFieldList (fuel : Nat) (what : String) : List VarDecl → SM AState (List SVar)
  | [] => pure []
  | fd :: rest => do
    let fieldType ← inferExpression fuel fd.typeE
    if !fieldType.isValid then
      pushErr .error ("Invalid type for " ++ what ++ ": " ++ fd.identifier.name)
    let v : SVar := ⟨fd.identifier.name, fieldType, fd.modifier.accessor, fd.modifier.modifier⟩
    let vs ← declareFieldList fuel what rest
    pure (v :: vs)

/-- The method-parameter loop of `Analyzer::declareClass`. -/
def declareMethodParams (fuel : Nat) : List VarDecl → SM AState (List SVar)
  | [] => pure []
  | p :: rest => do
    let paramType ← inferExpression fuel p.typeE
    if !paramType.isValid then
      pushErr .error ("Invalid type for method parameter: " ++ p.identifier.name)
    let v : SVar := ⟨p.identifier.name, paramType, p.modifier.accessor, p.modifier.modifier⟩
    let vs ← declareMethodParams fuel rest
    pure (v :: vs)

/-- The method-resolution loop of `Analyzer::declareClass`. -/
def declareMethodList (fuel : Nat) : List FuncDecl → SM AState (List SFun)
  | [] => pure []
  | .mk _ _ identifier typeE modifier parameters _ :: rest => do
    let returnType ← inferExpression fuel typeE
    if !returnType.isValid then
      pushErr .error ("Invalid return type for class method: " ++ identifier.name)
    let params ← declareMethodParams fuel parameters
    let m : SFun := ⟨identifier.name, returnType, params, modifier.accessor, modifier.modifier⟩
    let ms ← declareMethodList fuel rest
    pure (m :: ms)

/-- `Analyzer::declareClass`. -/
def declareClass (fuel : Nat) (name : String) (fieldDecls : List VarDecl)
    (methodDecls : List FuncDecl) : SM AState SCls := do
  let fields ← declareFieldList fuel "class field" fieldDecls
  let methods ← declareMethodList fuel methodDecls
  addClassA ⟨name, fields, methods⟩
  let st ← SM.get
  match st.scope with
  | none => SM.crash
  | some sc => pure (sc.getClassS name)

/-- `Analyzer::declareRecord`. -/
def declareRecord (fuel : Nat) (name : String) (fieldDecls : List VarDecl) : SM AState SRec := do
  let fields ← declareFieldList fuel "record field" fieldDecls
  addRecordA ⟨name, fields⟩
  let st ← SM.get
  match st.scope with
  | none => SM.crash
  | some sc => pure (sc.getRecordS name)

/-- `Analyzer::analyzeModifierStatement`: a non-default modifier statement
outside a Class scope (by the `hasFlag` test) is an error. -/
def analyzeModifierStatement (m : ModInfo) : SM AState Unit := do
  let st ← SM.get
  match st.scope with
  | none => SM.crash
  | some sc =>
    if !hasFlagN sc.kind ScopeKind.classK.val &&
        (m.accessor != Accessor.Public || m.modifier != 0) then
      pushErr .error "Modifiers can only be used within class scopes."
    else pure ()

/-- `Analyzer::analyzeReturnStatement`: infer the returned expression,
then require a Function flag in the scope-kind bitmask. -/
def analyzeReturnStatement (fuel : Nat) (expr? : Option Expr) : SM AState Unit := do
  match expr? with
  | some e => do
    _ ← inferExpression fuel e
    pure ()
  | none => pure ()
  let st ← SM.get
  match st.scope with
  | none => SM.crash
  | some sc =>
    if !hasFlagN sc.kind ScopeKind.function.val then
      pushErr .error "Return statement not within a function scope."
    else pure ()

/-- `Analyzer::analyzeBreakStatement`: require a Loop flag in the
scope-kind bitmask. -/
def analyzeBreakStatement : SM AState Unit := do
  let st ← SM.get
  match st.scope with
  | none => SM.crash
  | some sc =>
    if !hasFlagN sc.kind ScopeKind.loop.val then
      pushErr .error "Break statement not within a loop scope."
    else pure ()

/-- `Analyzer::analyzeContinueStatement`. -/
def analyzeContinueStatement : SM AState Unit := do
  let st ← SM.get
  match st.scope with
  | none => SM.crash
  | some sc =>
    if !hasFlagN sc.kind ScopeKind.loop.val then
      pushErr .error "Continue statement not within a loop scope."
    else pure ()

/-- `Analyzer::analyzeExpressionStatement`. -/
def analyzeExpressionStatement (fuel : Nat) (e : Expr) : SM AState Unit := do
  let exprType ← inferExpression fuel e
  if !exprType.isValid then
    pushErr .error "Invalid expression in expression statement."
  else pure ()

/-- `Analyzer::analyzeVariableDeclaration`: declare, report an
undeclarable variable, then check the initializer; note the argument
order `canAssignType(init_type, var.type)`. -/
def analyzeVariableDeclaration (fuel : Nat) (d : VarDecl) : SM AState Unit := do
  let var ← declareVariable fuel d
  if !var.isValid then
    pushErr .error ("Unable to declare variable: " ++ d.identifier.name)
  match d.initializer with
  | none => pure ()
  | some init => do
    let initType ← inferExpression fuel init
    if !initType.isValid then
      pushErr .error ("Invalid type for variable initializer: " ++ d.identifier.name)
    else if !canAssignType initType var.type then
      pushErr .error ("Type mismatch in variable initializer: " ++ d.identifier.name)
    else pure ()

mutual

/-- `Analyzer::analyze`: open the global scope, analyze the top-level
statements, close the scope. -/
def analyzeProgram : Nat → Program → SM AState Unit
  | 0, _ => SM.crash
  | fuel + 1, p => do
    enterScope "global" ScopeKind.global.val
    analyzeStmtList fuel p.statements
    exitScope

/-- Statement-list traversal shared by `analyze` and block analysis. -/
def analyzeStmtList : Nat → List Stmt → SM AState Unit
  | 0, _ => SM.crash
  | _fuel + 1, [] => pure ()
  | fuel + 1, s :: rest => do
    analyzeStatement fuel s
    analyzeStmtList fuel rest

/-- `Analyzer::analyzeStatement` and `analyzeConditional`: dispatch by
variant (a plain case `Conditional` matches none of the conditional
casts and is ignored, which here cannot occur as a statement). -/
def analyzeStatement : Nat → Stmt → SM AState Unit
  | 0, _ => SM.crash
  | fuel + 1, s =>
    match s with
    | .sdecl d => analyzeDeclaration fuel d
    | .smodifier m => analyzeModifierStatement m
    | .sblock b => analyzeBlockStatement fuel b
    | .sexpr _ _ e => analyzeExpressionStatement fuel e
    | .sif c => analyzeIfConditional fuel c
    | .sswitch sw => analyzeSwitchConditional fuel sw
    | .swhile _ _ cond body => analyzeWhileConditional fuel cond body
    | .sfor _ _ init? cond? inc? body => analyzeForConditional fuel init? cond? inc? body
    | .sreturn _ _ e? => analyzeReturnStatement fuel e?
    | .sbreak _ _ => analyzeBreakStatement
    | .scontinue _ _ => analyzeContinueStatement

/-- `Analyzer::analyzeDeclaration`: dispatch by declaration variant. -/
def analyzeDeclaration : Nat → Decl → SM AState Unit
  | 0, _ => SM.crash
  | fuel + 1, d =>
    match d with
    | .dfunc f => analyzeFunctionDeclaration fuel f
    | .dvar v => analyzeVariableDeclaration fuel v
    | .dcls _ _ identifier _ _ fields methods =>
      analyzeClassDeclaration fuel identifier.name fields methods
    | .drec _ _ identifier _ _ fields =>
      analyzeRecordDeclaration fuel identifier.name fields

/-- `Analyzer::analyzeFunctionDeclaration`: declare, then analyze the
parameters and body inside a Function scope. -/
def analyzeFunctionDeclaration : Nat → FuncDecl → SM AState Unit
  | 0, _ => SM.crash
  | fuel + 1, f => do
    let func ← declareFunction fuel f
    if !func.isValid then do
      pushErr .error ("Unable to declare function: " ++ f.identifier.name)
      pure ()
    else do
      enterScope f.identifier.name ScopeKind.function.val
      analyzeFuncParams fuel f.parameters
      analyzeBlockStatement fuel f.body
      exitScope

/-- The parameter-registration loop of `analyzeFunctionDeclaration`. -/
def analyzeFuncParams : Nat → List VarDecl → SM AState Unit
  | 0, _ => SM.crash
  | _fuel + 1, [] => pure ()
  | fuel + 1, p :: rest => do
    let param ← declareVariable fuel p
    if !param.isValid then
      pushErr .error ("Unable to declare function parameter: " ++ p.identifier.name)
    analyzeFuncParams fuel rest

/-- `Analyzer::analyzeClassDeclaration`: declare the class, then analyze
its methods inside a Class scope. -/
def analyzeClassDeclaration : Nat → String → List VarDecl → List FuncDecl → SM AState Unit
  | 0, _, _, _ => SM.crash
  | fuel + 1, name, fields, methods => do
    let cls ← declareClass fuel name fields methods
    if !(cls.name != "") then do
      pushErr .error ("Unable to declare class: " ++ name)
      pure ()
    else do
      enterScope name ScopeKind.classK.val
      analyzeMethodList fuel methods
      exitScope

/-- The method loop of `analyzeClassDeclaration`. -/
def analyzeMethodList : Nat → List FuncDecl → SM AState Unit
  | 0, _ => SM.crash
  | _fuel + 1, [] => pure ()
  | fuel + 1, m :: rest => do
    analyzeFunctionDeclaration fuel m
    analyzeMethodList fuel rest

/-- `Analyzer::analyzeRecordDeclaration`. -/
def analyzeRecordDeclaration : Nat → String → List VarDecl → SM AState Unit
  | 0, _, _ => SM.crash
  | fuel + 1, name, fields => do
    let record ← declareRecord fuel name fields
    if !(record.name != "") then
      pushErr .error ("Unable to declare record: " ++ name)
    else pure ()

/-- `Analyzer::analyzeBlockStatement`: a Block scope around the inner
statements. -/
def analyzeBlockStatement : Nat → Block → SM AState Unit
  | 0, _ => SM.crash
  | fuel + 1, b => do
    enterScope "block" ScopeKind.block.val
    analyzeStmtList fuel b.statements
    exitScope

/-- `Analyzer::analyzeIfConditional`: condition validity and truthiness,
then branch, elifs and optional else. -/
def analyzeIfConditional : Nat → IfCond → SM AState Unit
  | 0, _ => SM.crash
  | fuel + 1, .mk _ _ condition thenBranch elifs elseBranch? => do
    let condType ← inferExpression fuel condition
    if !condType.isValid then
      pushErr .error "Invalid type for condition expression."
    else if !condType.isTruthy then
      pushErr .error "Condition expression must be of a truthy type."
    analyzeBlockStatement fuel thenBranch
    analyzeElifList fuel elifs
    match elseBranch? with
    | some eb => analyzeBlockStatement fuel eb
    | none => pure ()

/-- The elif loop of `analyzeIfConditional`. -/
def analyzeElifList : Nat → List IfCond → SM AState Unit
  | 0, _ => SM.crash
  | _fuel + 1, [] => pure ()
  | fuel + 1, c :: rest => do
    analyzeIfConditional fuel c
    analyzeElifList fuel rest

/-- `Analyzer::analyzeSwitchConditional`: scrutinee validity, then each
case's block (case expressions are not matched against the scrutinee). -/
def analyzeSwitchConditional : Nat → SwitchCond → SM AState Unit
  | 0, _ => SM.crash
  | fuel + 1, .mk _ _ switchExpression caseBranches => do
    let switchType ← inferExpression fuel switchExpression
    if !switchType.isValid then
      pushErr .error "Invalid type for switch expression."
    analyzeCaseList fuel caseBranches

/-- The case loop of `analyzeSwitchConditional`. -/
def analyzeCaseList : Nat → List CaseCond → SM AState Unit
  | 0, _ => SM.crash
  | _fuel + 1, [] => pure ()
  | fuel + 1, .mk _ _ _ thenBranch :: rest => do
    analyzeBlockStatement fuel thenBranch
    analyzeCaseList fuel rest

/-- `Analyzer::analyzeWhileConditional`: a Loop scope around condition
checks and the body. -/
def analyzeWhileConditional : Nat → Expr → Block → SM AState Unit
  | 0, _, _ => SM.crash
  | fuel + 1, condition, body => do
    enterScope "while" ScopeKind.loop.val
    let condType ← inferExpression fuel condition
    if !condType.isValid then
      pushErr .error "Invalid type for condition expression."
    else if !condType.isTruthy then
      pushErr .error "Condition expression must be of a truthy type."
    analyzeBlockStatement fuel body
    exitScope

/-- `Analyzer::analyzeForConditional`: a Loop scope; the increment's
invalid-type diagnostic is only printed with `err.log()`, not
accumulated (its duplicated `else if` branch is unreachable). -/
def analyzeForConditional : Nat → Option Decl → Option Expr → Option Expr → Block → SM AState Unit
  | 0, _, _, _, _ => SM.crash
  | fuel + 1, init?, cond?, inc?, body => do
    enterScope "for" ScopeKind.loop.val
    match init? with
    | some d => analyzeDeclaration fuel d
    | none => pure ()
    match cond? with
    | some c => do
      let condType ← inferExpression fuel c
      if !condType.isValid then
        pushErr .error "Condition expression must be of a valid type."
      else if !condType.isTruthy then
        pushErr .error "Condition expression must be of a truthy type."
    | none => pure ()
    match inc? with
    | some inc => do
      let incType ← inferExpression fuel inc
      if !incType.isValid then
        pushLogged .error "Increment expression must be of a valid type."
    | none => pure ()
    analyzeBlockStatement fuel body
    exitScope

end

/-- Run the analyzer on a program from the initial `Analyzer()` state
(no scope, no diagnostics), returning the final state. -/
def analyzeRun (fuel : Nat) (p : Program) : Option AState :=
  match analyzeProgram fuel p ⟨none, [], []⟩ with
  | some (_, st) => some st
  | none => none

/-! ### Generic lemmas about the state/failure monad -/

theorem SM.bind_apply {σ α β : Type} (m : SM σ α) (f : α → SM σ β) (s : σ) :
    (m >>= f) s = match m s with
      | Option.none => none
      | some (a, s') => f a s' := rfl

theorem SM.pure_apply {σ α : Type} (a : α) (s : σ) :
    (pure a : SM σ α) s = some (a, s) := rfl

theorem SM.bind_eq_some {σ α β : Type} {m : SM σ α} {f : α → SM σ β} {s : σ}
    {r : β × σ} :
    (m >>= f) s = some r ↔ ∃ a s', m s = some (a, s') ∧ f a s' = some r := by
  rw [SM.bind_apply]
  cases h : m s with
  | none => simp
  | some p =>
    cases p with
    | mk a s' =>
      constructor
      · intro hf
        exact ⟨a, s', rfl, hf⟩
      · rintro ⟨a1, s1, he, hf⟩
        cases he
        exact hf

/-! ### Expression shapes

A loci-free skeleton of an expression tree, used to state the
precedence-climbing scenario. -/

/-- Operator/operand skeleton of an expression. -/
inductive EShape where
  | bin (op : String) (l r : EShape)
  | una (op : String) (e : EShape)
  | idn (name : String)
  | lit (value : String)
  | other
deriving DecidableEq, Repr

/-- Erase loci from an expression, keeping binary/unary structure,
identifier names and literal texts. -/
def Expr.shape : Expr → EShape
  | .binary _ _ l op r => .bin op l.shape r.shape
  | .unary _ _ op e => .una op e.shape
  | .ident _ _ n => .idn n
  | .literal _ _ v _ => .lit v
  | _ => .other

/-- The shape of an expression statement (`none` for anything else). -/
def stmtShape : Stmt → Option EShape
  | .sexpr _ _ e => some e.shape
  | _ => none

/-! ### Shared concrete fixtures -/

/-- An analyzer state holding just the freshly opened global scope. -/
def gState : AState := ⟨some (Scope.mk "global" 0 [] [] [] [] none), [], []⟩

/-! ### Lexer progress lemmas

Every token other than Eof and None consumes at least one character;
these lemmas justify that the fuel `src.length + 1` suffices for the
token-collecting loop. -/

theorem lexIgnore_current (st : LexSt) : (lexIgnore st).current = st.current := rfl

theorem lexAdvance_index_eq (src : List Char) (st : LexSt)
    (h : lexIsEof src st = false) :
    (lexAdvance src st).current.index = st.current.index + 1 := by
  simp only [lexAdvance, h, Bool.false_eq_true, if_false]
  split <;> rfl

theorem lexAdvance_index_le (src : List Char) (st : LexSt) :
    st.current.index ≤ (lexAdvance src st).current.index := by
  cases he : lexIsEof src st
  · have := lexAdvance_index_eq src st he
    omega
  · simp [lexAdvance, he]

theorem lexTake_index_le (src : List Char) (p : Char → Bool) :
    ∀ (fuel : Nat) (st : LexSt),
      st.current.index ≤ (lexTake src p fuel st).current.index := by
  intro fuel
  induction fuel with
  | zero => intro st; exact Nat.le_refl _
  | succ n ih =>
    intro st
    rw [lexTake]
    split
    · split
      · exact Nat.le_refl _
      · exact Nat.le_trans (lexAdvance_index_le src st) (ih _)
    · exact Nat.le_refl _

theorem lexTake_progress (src : List Char) (p : Char → Bool) (st : LexSt)
    (hp : p (lexPeek src st) = true) (he : lexIsEof src st = false) :
    st.current.index < (lexTake src p (src.length + 1) st).current.index := by
  have h1 := lexAdvance_index_eq src st he
  have h2 := lexTake_index_le src p src.length (lexAdvance src st)
  simp only [lexTake, hp, he, if_true, Bool.false_eq_true, if_false]
  omega

theorem lexStringBody_index_le (src : List Char) :
    ∀ (fuel : Nat) (st : LexSt),
      st.current.index ≤ (lexStringBody src fuel st).2.current.index := by
  intro fuel
  induction fuel with
  | zero => intro st; exact Nat.le_refl _
  | succ n ih =>
    intro st
    rw [lexStringBody]
    split
    · split
      · exact Nat.le_refl _
      · exact Nat.le_trans (lexAdvance_index_le src st) (ih _)
    · exact Nat.le_refl _

theorem lexPeek_eof (src : List Char) (st : LexSt) (h : lexIsEof src st = true) :
    lexPeek src st = '\x00' := by
  simp [lexPeek, h]

theorem lexAlpha_progress (src : List Char) (st : LexSt) (tok : Token) (st' : LexSt)
    (h : lexAlpha src st = some (tok, st')) :
    st.current.index < st'.current.index ∧ lexIsEof src st = false := by
  unfold lexAlpha at h
  by_cases hc : ((lexPeek src st).isAlpha || lexPeek src st == '_') = true
  · have he : lexIsEof src st = false := by
      by_contra hee
      have ht : lexIsEof src st = true := by
        cases hx : lexIsEof src st
        · exact absurd hx hee
        · rfl
      rw [lexPeek_eof src st ht] at hc
      simp at hc
    have hp : ((fun c => c.isAlphanum || c == '_') (lexPeek src st)) = true := by
      have hc' : (lexPeek src st).isAlpha = true ∨ (lexPeek src st == '_') = true := by
        simpa using hc
      rcases hc' with h1 | h1 <;> simp [Char.isAlphanum, h1]
    have hprog := lexTake_progress src (fun c => c.isAlphanum || c == '_') st hp he
    simp only [hc, if_true] at h
    refine ⟨?_, he⟩
    split at h <;>
    · simp only [lexMakeToken, Option.some.injEq, Prod.mk.injEq] at h
      obtain ⟨-, h2⟩ := h
      subst h2
      simpa [lexIgnore] using hprog
  · have hc' : ((lexPeek src st).isAlpha || lexPeek src st == '_') = false :=
      Bool.eq_false_iff.mpr hc
    simp [hc'] at h

theorem lexNumeric_progress (src : List Char) (st : LexSt) (tok : Token) (st' : LexSt)
    (h : lexNumeric src st = some (tok, st')) :
    st.current.index < st'.current.index ∧ lexIsEof src st = false := by
  unfold lexNumeric at h
  by_cases hc : (lexPeek src st).isDigit = true
  · have he : lexIsEof src st = false := by
      cases hx : lexIsEof src st
      · rfl
      · rw [lexPeek_eof src st hx] at hc
        exact absurd hc (by decide)
    have hprog := lexTake_progress src Char.isDigit st hc he
    refine ⟨?_, he⟩
    simp only [hc, if_true] at h
    split at h
    · split at h
      · simp only [lexMakeToken, Option.some.injEq, Prod.mk.injEq] at h
        obtain ⟨-, h2⟩ := h
        subst h2
        rw [lexIgnore_current]
        exact hprog
      · simp only [lexMakeToken, Option.some.injEq, Prod.mk.injEq] at h
        obtain ⟨-, h2⟩ := h
        subst h2
        rw [lexIgnore_current]
        have h3 := lexAdvance_index_le src (lexTake src Char.isDigit (src.length + 1) st)
        have h4 := lexTake_index_le src Char.isDigit (src.length + 1)
          (lexAdvance src (lexTake src Char.isDigit (src.length + 1) st))
        omega
    · simp only [lexMakeToken, Option.some.injEq, Prod.mk.injEq] at h
      obtain ⟨-, h2⟩ := h
      subst h2
      rw [lexIgnore_current]
      exact hprog
  · have hc' : (lexPeek src st).isDigit = false := Bool.eq_false_iff.mpr hc
    simp [hc'] at h

theorem lexCharacter_progress (src : List Char) (st : LexSt) (tok : Token)
    (errs : List Err) (st' : LexSt)
    (h : lexCharacter src st = some (tok, errs, st')) :
    st.current.index < st'.current.index ∧ lexIsEof src st = false := by
  unfold lexCharacter at h
  by_cases hc : (lexPeek src st == '\'') = true
  · have he : lexIsEof src st = false := by
      cases hx : lexIsEof src st
      · rfl
      · rw [lexPeek_eof src st hx] at hc
        exact absurd hc (by decide)
    refine ⟨?_, he⟩
    have h1 := lexAdvance_index_eq src st he
    simp only [hc, if_true] at h
    split at h
    all_goals try split at h
    all_goals try split at h
    all_goals (
      simp only [lexMakeToken, Option.some.injEq, Prod.mk.injEq] at h
      obtain ⟨-, -, h2⟩ := h
      subst h2
      rw [lexIgnore_current]
      have a1 := lexAdvance_index_le src (lexAdvance src st)
      have a2 := lexAdvance_index_le src (lexAdvance src (lexAdvance src st))
      have a3 := lexAdvance_index_le src (lexAdvance src (lexAdvance src (lexAdvance src st)))
      omega)
  · have hc' : (lexPeek src st == '\'') = false := Bool.eq_false_iff.mpr hc
    simp [hc'] at h

theorem lexString_progress (src : List Char) (st : LexSt) (tok : Token)
    (errs : List Err) (st' : LexSt)
    (h : lexString src st = some (tok, errs, st')) :
    st.current.index < st'.current.index ∧ lexIsEof src st = false := by
  unfold lexString at h
  by_cases hc : (lexPeek src st == '"') = true
  · have he : lexIsEof src st = false := by
      cases hx : lexIsEof src st
      · rfl
      · rw [lexPeek_eof src st hx] at hc
        exact absurd hc (by decide)
    refine ⟨?_, he⟩
    have h1 := lexAdvance_index_eq src st he
    simp only [hc, if_true] at h
    rcases hSB : lexStringBody src (src.length + 1) (lexAdvance src st) with ⟨errs3, st3⟩
    rw [hSB] at h
    have h2 : (lexAdvance src st).current.index ≤ st3.current.index := by
      have := lexStringBody_index_le src (src.length + 1) (lexAdvance src st)
      rwa [hSB] at this
    have h3 := lexAdvance_index_le src st3
    simp only [lexMakeToken, Option.some.injEq, Prod.mk.injEq] at h
    obtain ⟨-, -, h4⟩ := h
    subst h4
    rw [lexIgnore_current]
    omega
  · have hc' : (lexPeek src st == '"') = false := Bool.eq_false_iff.mpr hc
    simp [hc'] at h

theorem lexOperator_progress (src : List Char) (st : LexSt) (tok : Token) (st' : LexSt)
    (he : lexIsEof src st = false)
    (h : lexOperator src st = some (tok, st')) :
    st.current.index < st'.current.index := by
  unfold lexOperator at h
  by_cases hc : isOp (lexLook src st) = true
  · simp only [hc, if_true] at h
    have h1 := lexAdvance_index_eq src st he
    split at h <;>
    · simp only [lexMakeToken, Option.some.injEq, Prod.mk.injEq] at h
      obtain ⟨-, h2⟩ := h
      subst h2
      rw [lexIgnore_current]
      have h3 := lexAdvance_index_le src (lexAdvance src st)
      omega
  · have hc' : isOp (lexLook src st) = false := Bool.eq_false_iff.mpr hc
    simp [hc'] at h

theorem lexDelimiter_progress (src : List Char) (st : LexSt) (tok : Token) (st' : LexSt)
    (he : lexIsEof src st = false)
    (h : lexDelimiter src st = some (tok, st')) :
    st.current.index < st'.current.index := by
  unfold lexDelimiter at h
  by_cases hc : isDel (lexLook src st) = true
  · simp only [hc, if_true, lexMakeToken, Option.some.injEq, Prod.mk.injEq] at h
    obtain ⟨-, h2⟩ := h
    subst h2
    rw [lexIgnore_current]
    have h1 := lexAdvance_index_eq src st he
    omega
  · have hc' : isDel (lexLook src st) = false := Bool.eq_false_iff.mpr hc
    simp [hc'] at h

theorem lexNext_progress (src : List Char) (st : LexSt) (tok : Token)
    (errs : List Err) (st' : LexSt)
    (h : lexNext src st = (tok, errs, st'))
    (hk1 : tok.kind ≠ TokenKind.eof) (hk2 : tok.kind ≠ TokenKind.none) :
    st.current.index < st'.current.index ∧ st.current.index < src.length := by
  have hle : st.current.index ≤
      (lexIgnore (lexTake src isWsp (src.length + 1) st)).current.index := by
    rw [lexIgnore_current]
    exact lexTake_index_le src isWsp (src.length + 1) st
  simp only [lexNext] at h
  set st1 := lexIgnore (lexTake src isWsp (src.length + 1) st) with hst1
  cases he : lexIsEof src st1
  · have hlt : st1.current.index < src.length := by
      have hge : ¬ st1.current.index ≥ src.length := by simpa [lexIsEof] using he
      omega
    simp only [he, Bool.false_eq_true, if_false] at h
    split at h
    · rename_i ta sa hA
      simp only [Prod.mk.injEq] at h
      obtain ⟨h1, h2, h3⟩ := h
      subst h3
      have hp := lexAlpha_progress src st1 ta sa hA
      exact ⟨by omega, by omega⟩
    · rename_i hA
      split at h
      · rename_i tn sn hN
        simp only [Prod.mk.injEq] at h
        obtain ⟨h1, h2, h3⟩ := h
        subst h3
        have hp := lexNumeric_progress src st1 tn sn hN
        exact ⟨by omega, by omega⟩
      · rename_i hN
        split at h
        · rename_i tc ec sc hC
          simp only [Prod.mk.injEq] at h
          obtain ⟨h1, h2, h3⟩ := h
          subst h3
          have hp := lexCharacter_progress src st1 tc ec sc hC
          exact ⟨by omega, by omega⟩
        · rename_i hC
          split at h
          · rename_i ts es ss hS
            simp only [Prod.mk.injEq] at h
            obtain ⟨h1, h2, h3⟩ := h
            subst h3
            have hp := lexString_progress src st1 ts es ss hS
            exact ⟨by omega, by omega⟩
          · rename_i hS
            split at h
            · rename_i tp sp hO
              simp only [Prod.mk.injEq] at h
              obtain ⟨h1, h2, h3⟩ := h
              subst h3
              have hp := lexOperator_progress src st1 tp sp he hO
              exact ⟨by omega, by omega⟩
            · rename_i hO
              split at h
              · rename_i td sd hD
                simp only [Prod.mk.injEq] at h
                obtain ⟨h1, h2, h3⟩ := h
                subst h3
                have hp := lexDelimiter_progress src st1 td sd he hD
                exact ⟨by omega, by omega⟩
              · rename_i hD
                simp only [lexMakeToken, Prod.mk.injEq] at h
                obtain ⟨h1, h2, h3⟩ := h
                subst h1
                exact absurd rfl hk2
  · simp only [he, if_true] at h
    simp only [Prod.mk.injEq] at h
    obtain ⟨h1, h2, h3⟩ := h
    subst h1
    exact absurd rfl hk1

theorem lexLoop_ends (src : List Char) :
    ∀ (fuel : Nat) (st : LexSt), src.length - st.current.index < fuel →
      ∃ t, (lexLoop src fuel st).1.getLast? = some t ∧
        (t.kind = TokenKind.eof ∨ t.kind = TokenKind.none) := by
  intro fuel
  induction fuel with
  | zero => intro st hf; omega
  | succ n ih =>
    intro st hf
    rcases hN : lexNext src st with ⟨tok, errs, st'⟩
    simp only [lexLoop, hN]
    by_cases hk : (tok.kind == TokenKind.eof || tok.kind == TokenKind.none) = true
    · simp only [hk, if_true]
      refine ⟨tok, rfl, ?_⟩
      simpa using hk
    · have hkk : tok.kind ≠ TokenKind.eof ∧ tok.kind ≠ TokenKind.none := by
        simpa [not_or] using hk
      have hprog := lexNext_progress src st tok errs st' hN hkk.1 hkk.2
      have hf' : src.length - st'.current.index < n := by omega
      obtain ⟨t, hlast, hkind⟩ := ih st' hf'
      refine ⟨t, ?_, hkind⟩
      have hkf : (tok.kind == TokenKind.eof || tok.kind == TokenKind.none) = false :=
        Bool.eq_false_iff.mpr hk
      simp only [hkf, Bool.false_eq_true, if_false]
      rcases hL : lexLoop src n st' with ⟨ts, es⟩
      rw [hL] at hlast
      cases ts with
      | nil => simp at hlast
      | cons b l =>
        rw [List.getLast?_cons_cons]
        exact hlast

/-! ### Claim C3 -/

/-- Claim C3: for every input string the lexer returns a non-empty token
list whose last element is an Eof token or a None token — but not always
an Eof token, as the claim says: when a character no rule matches is
reached, the None token is the final token and no Eof is emitted. -/
theorem c3_last_token (source : String) :
    (lex source).1 ≠ [] ∧
    (((lex source).1.getLastD Token.defaultTok).kind = TokenKind.eof ∨
     ((lex source).1.getLastD Token.defaultTok).kind = TokenKind.none) := by
  obtain ⟨t, hlast, hkind⟩ :=
    lexLoop_ends source.data (source.data.length + 1) lexInit (by simp [lexInit])
  have hlex : (lex source).1.getLast? = some t := hlast
  constructor
  · intro hnil
    rw [hnil] at hlex
    simp at hlex
  · rw [List.getLastD_eq_getLast?, hlex]
    exact hkind

/-- Claim C3, counterexample: on the input `"@"` — whose single character
no lexing rule matches — the lexer emits a None token and stops, so the
token list does not end in an Eof token. -/
theorem c3_counterexample :
    (lex "@").1 = [⟨TokenKind.none, "", ⟨1, 1, 0⟩, ⟨1, 1, 0⟩⟩] ∧
    ((lex "@").1.getLastD Token.defaultTok).kind ≠ TokenKind.eof := by
  constructor
  · rfl
  · decide

/-- The two-character operators recognised by `opLen`. -/
def twoCharOps : List (List Char) :=
  [['+', '='], ['+', '+'], ['-', '='], ['-', '-'], ['*', '='], ['*', '*'],
   ['/', '='], ['%', '%'], ['=', '='], ['!', '='], ['<', '='], ['<', '<'],
   ['>', '='], ['>', '>'], ['.', '.'], ['.', '='], ['&', '&'], ['|', '|'],
   ['?', '?']]

/-- The single-character operators recognised by `opLen`. -/
def singleOps : List Char :=
  ['+', '-', '*', '/', '%', '=', '!', '<', '>', '.', '&', '|', '?', '^', '~']

/-- Claim C4, counterexample: the claim says `opLen` returns 1 when the
string begins with a single-char operator and the next character does not
form a two-char operator with it; but on `"+a"` — which begins with `+`,
`a` forming no two-char operator — `opLen` returns 0, not 1. -/
theorem c4_counterexample :
    '+' ∈ singleOps ∧ ['+', 'a'] ∉ twoCharOps ∧
    opLen ['+', 'a'] = 0 ∧ opLen ['+', 'a'] ≠ 1 := by
  refine ⟨by decide, by decide, rfl, by decide⟩

/-- The amended claim's wording as a definition: 2 when the first two
characters (the second read as the C++ null terminator at the end of the
string) form a two-char operator; 1 when the first character is a
single-char operator and the second character is the null terminator —
i.e. when the string is exactly the operator; 0 otherwise. -/
def specOpLen (s : List Char) : Nat :=
  match s with
  | [] => 0
  | c :: _ =>
    if [c, chAt s 1] ∈ twoCharOps then 2
    else if c ∈ singleOps ∧ chAt s 1 = '\x00' then 1
    else 0

/-- Claim C4 (amended): `opLen` agrees everywhere with the amended
specification `specOpLen` — in particular it returns 1 only when the
string is exactly a single-char operator (second character the null
terminator), not whenever the following character merely fails to
complete a two-char operator. -/
theorem c4_oplen (s : List Char) : opLen s = specOpLen s := by
  cases s with
  | nil => rfl
  | cons c rest =>
    simp only [opLen, specOpLen, beq_iff_eq]
    generalize chAt (c :: rest) 1 = q
    by_cases h1 : c = '+'
    · subst h1
      by_cases hq1 : q = '='
      · subst hq1; decide
      by_cases hq2 : q = '+'
      · subst hq2; decide
      simp [twoCharOps, singleOps, hq1, hq2]
    by_cases h2 : c = '-'
    · subst h2
      by_cases hq1 : q = '='
      · subst hq1; decide
      by_cases hq2 : q = '-'
      · subst hq2; decide
      simp [twoCharOps, singleOps, h1, hq1, hq2]
    by_cases h3 : c = '*'
    · subst h3
      by_cases hq1 : q = '='
      · subst hq1; decide
      by_cases hq2 : q = '*'
      · subst hq2; decide
      simp [twoCharOps, singleOps, h1, h2, hq1, hq2]
    by_cases h4 : c = '/'
    · subst h4
      by_cases hq1 : q = '='
      · subst hq1; decide
      simp [twoCharOps, singleOps, h1, h2, h3, hq1]
    by_cases h5 : c = '%'
    · subst h5
      by_cases hq1 : q = '%'
      · subst hq1; decide
      simp [twoCharOps, singleOps, h1, h2, h3, h4, hq1]
    by_cases h6 : c = '='
    · subst h6
      by_cases hq1 : q = '='
      · subst hq1; decide
      simp [twoCharOps, singleOps, h1, h2, h3, h4, h5, hq1]
    by_cases h7 : c = '!'
    · subst h7
      by_cases hq1 : q = '='
      · subst hq1; decide
      simp [twoCharOps, singleOps, h1, h2, h3, h4, h5, h6, hq1]
    by_cases h8 : c = '<'
    · subst h8
      by_cases hq1 : q = '='
      · subst hq1; decide
      by_cases hq2 : q = '<'
      · subst hq2; decide
      simp [twoCharOps, singleOps, h1, h2, h3, h4, h5, h6, h7, hq1, hq2]
    by_cases h9 : c = '>'
    · subst h9
      by_cases hq1 : q = '='
      · subst hq1; decide
      by_cases hq2 : q = '>'
      · subst hq2; decide
      simp [twoCharOps, singleOps, h1, h2, h3, h4, h5, h6, h7, h8, hq1, hq2]
    by_cases h10 : c = '.'
    · subst h10
      by_cases hq1 : q = '.'
      · subst hq1; decide
      by_cases hq2 : q = '='
      · subst hq2; decide
      simp [twoCharOps, singleOps, h1, h2, h3, h4, h5, h6, h7, h8, h9, hq1, hq2]
    by_cases h11 : c = '&'
    · subst h11
      by_cases hq1 : q = '&'
      · subst hq1; decide
      simp [twoCharOps, singleOps, h1, h2, h3, h4, h5, h6, h7, h8, h9, h10, hq1]
    by_cases h12 : c = '|'
    · subst h12
      by_cases hq1 : q = '|'
      · subst hq1; decide
      simp [twoCharOps, singleOps, h1, h2, h3, h4, h5, h6, h7, h8, h9, h10, h11, hq1]
    by_cases h13 : c = '?'
    · subst h13
      by_cases hq1 : q = '?'
      · subst hq1; decide
      simp [twoCharOps, singleOps, h1, h2, h3, h4, h5, h6, h7, h8, h9, h10, h11, h12, hq1]
    by_cases h14 : c = '^'
    · subst h14
      simp [twoCharOps, singleOps, h1, h2, h3, h4, h5, h6, h7, h8, h9, h10, h11, h12, h13]
    by_cases h15 : c = '~'
    · subst h15
      simp [twoCharOps, singleOps, h1, h2, h3, h4, h5, h6, h7, h8, h9, h10, h11, h12, h13, h14]
    simp [twoCharOps, singleOps, h1, h2, h3, h4, h5, h6, h7, h8, h9, h10, h11, h12, h13, h14, h15]

/-! ## Claim C5: commutativity of type promotion -/

/-- The singleton `Type` instances of `type.h` (including `none_ty`). -/
def singletonTys : List Ty :=
  [noneTy, voidTy, nullTy, boolTy, i8Ty, i16Ty, i32Ty, i64Ty, i128Ty,
   u8Ty, u16Ty, u32Ty, u64Ty, u128Ty, f16Ty, f32Ty, f64Ty, f128Ty,
   charTy, stringTy]

/-- Claim C5, counterexample: promotion is not commutative under the
name-comparing type equality — `promote(i32, u32)` is `i32` while
`promote(u32, i32)` is `u32` (equal-width integers of different
signedness: the first argument wins the width tie). -/
theorem c5_counterexample :
    promoteTypes i32Ty u32Ty = i32Ty ∧ promoteTypes u32Ty i32Ty = u32Ty ∧
    tyEq (promoteTypes i32Ty u32Ty) (promoteTypes u32Ty i32Ty) = false := by
  refine ⟨rfl, rfl, by decide⟩

/-- Claim C5 (amended): over the singleton types of `type.h`,
`promote(a, b) == promote(b, a)` (name equality) holds for every pair
except the equal-width signed/unsigned integer pairs with distinct names
(i8/u8 … i128/u128), where `promote` returns its first argument. -/
theorem c5_promote_comm :
    ∀ a ∈ singletonTys, ∀ b ∈ singletonTys,
      ¬(a.isInteger = true ∧ b.isInteger = true ∧ a.size = b.size ∧ a.name ≠ b.name) →
      tyEq (promoteTypes a b) (promoteTypes b a) = true := by
  decide

/-- Claim C5, witness for the amended theorem at `(i32, f64)`. -/
theorem c5_promote_comm_witness :
    i32Ty ∈ singletonTys ∧ f64Ty ∈ singletonTys ∧
    tyEq (promoteTypes i32Ty f64Ty) (promoteTypes f64Ty i32Ty) = true :=
  ⟨by decide, by decide,
   c5_promote_comm i32Ty (by decide) f64Ty (by decide) (by decide)⟩

/-! ## Claim C9: the unterminated string literal -/

/-- Claim C9: lexing `"unterminated` produces a String token spanning from
the opening quote (index 0) to the end of the input (index 13), followed
by the final Eof token, and exactly one Error diagnostic
"Unterminated string literal". -/
theorem c9_unterminated_string :
    lex "\"unterminated" =
      ([⟨.string, "\"unterminated", ⟨1, 1, 0⟩, ⟨1, 14, 13⟩⟩,
        ⟨.eof, "", ⟨1, 14, 13⟩, ⟨1, 14, 13⟩⟩],
       [⟨.error, "Unterminated string literal"⟩]) := by
  rfl

/-! ## Claim C8: precedence climbing on `a + b * c - d / e;` -/

/-- Claim C8: parsing `a + b * c - d / e;` yields exactly one top-level
statement, an ExpressionStatement whose root is Binary `-` with left
child Binary `+` of `a` and Binary `*` of `b`,`c`, and right child
Binary `/` of `d`,`e`. -/
theorem c8_precedence :
    (parseSource 100 "a + b * c - d / e;").map
        (fun r => r.1.statements.map stmtShape) =
      some [some (.bin "-"
        (.bin "+" (.idn "a") (.bin "*" (.idn "b") (.idn "c")))
        (.bin "/" (.idn "d") (.idn "e")))] := by
  rfl

/-! ## Claim C7: the expression-statement null dereference -/

/-- Claim C7: the claim asserts that parsing an expression statement whose
terminating `;` is missing because the input ends completes without
dereferencing the null token pointer returned by `expectValue`.  It does
not: on the source `a` the token stream is `[Identifier "a", Eof]`,
`expectValue ";"` returns the null pointer at end of input, and
`parseExpressionStatement` dereferences it (`semicolonToken->end`), which
the embedding models as the failure `none` — for the whole parse as well. -/
theorem c7_null_deref :
    (lex "a").1 = [⟨.identifier, "a", ⟨1, 1, 0⟩, ⟨1, 2, 1⟩⟩,
                   ⟨.eof, "", ⟨1, 2, 1⟩, ⟨1, 2, 1⟩⟩] ∧
    parseExpressionStatement 100 ⟨(lex "a").1, 0, Token.defaultTok, []⟩ = none ∧
    parseSource 100 "a" = none := by
  refine ⟨rfl, rfl, rfl⟩

/-! ## Claim C1: direction of the initializer assignability check -/

/-- Claim C1, counterexample: the claim reads the check as
`canAssign(declared_type, initializer_type)`, and `canAssign(i32, i64)`
is false, so on `let x: i32 = 5;` (initializer type `i64`) the claimed
check fails and the Error "Type mismatch in variable initializer" would
have to be emitted; the analyzer emits no diagnostic at all, because the
code calls `canAssignType(init_type, var.type)` — the reverse order —
which succeeds as an `i32`-to-`i64` widening. -/
theorem c1_counterexample :
    canAssignType i32Ty i64Ty = false ∧
    ((parseSource 100 "let x: i32 = 5;").bind
        (fun r => analyzeRun 100 r.1)).map (fun st => st.errors) = some [] := by
  refine ⟨by decide, rfl⟩

/-! ## Claim C2: the loop bitmask, counterexample -/

/-- Claim C2, counterexample: in `fn f() { break; }` the break statement
is not inside any while/for loop, so the claim demands the Error
"Break statement not within a loop scope"; the analyzer emits no
diagnostic at all, because the scope-kind values are not single bits —
`Block(1) | Function(2) = 3 = Loop`, so the `hasFlag(kind, Loop)` test
passes inside any function body block. -/
theorem c2_counterexample :
    ((parseSource 100 "fn f() \x7b break; \x7d").bind
        (fun r => analyzeRun 100 r.1)).map (fun st => st.errors) = some [] := by
  rfl

/-! ## Claim C1 (amended): the actual direction of the check -/

/-- Claim C1 (amended): when a variable declaration has an initializer,
the declaration part succeeded with a valid registered variable `var`,
and the initializer's inferred type `t` is valid, the analyzer's result
state carries the Error "Type mismatch in variable initializer" exactly
when `canAssignType t var.type` — initializer's type on the 'to' side,
registered variable's type on the 'from' side — fails. -/
theorem c1_assign_direction (fuel : Nat) (d : VarDecl) (st : AState) (init : Expr)
    (var : SVar) (st1 : AState) (t : Ty) (st2 : AState)
    (hinit : d.initializer = some init)
    (hdecl : declareVariable fuel d st = some (var, st1))
    (hvar : var.isValid = true)
    (hinf : inferExpression fuel init st1 = some (t, st2))
    (hty : t.isValid = true) :
    analyzeVariableDeclaration fuel d st =
      some ((), if canAssignType t var.type then st2
        else pushErrState st2
          ⟨.error, "Type mismatch in variable initializer: " ++ d.identifier.name⟩) := by
  unfold analyzeVariableDeclaration
  by_cases hca : canAssignType t var.type = true <;>
    simp [SM.bind_apply, SM.pure_apply, hdecl, hvar, hinit, hinf, hty, hca,
      pushErr, pushErrState]

/-- The `let x: i32 = 5;` declaration fed directly to the analyzer. -/
def c1d : VarDecl :=
  VarDecl.mk ⟨1, 1, 0⟩ ⟨1, 15, 14⟩ ⟨⟨1, 5, 4⟩, ⟨1, 6, 5⟩, "x"⟩
    (Expr.ident ⟨1, 8, 7⟩ ⟨1, 11, 10⟩ "i32") ⟨⟨1, 5, 4⟩, ⟨1, 5, 4⟩, Accessor.Private, 0⟩
    (some (Expr.literal ⟨1, 14, 13⟩ ⟨1, 15, 14⟩ "5" .integer))

/-- The initializer literal of `c1d`. -/
def c1init : Expr := Expr.literal ⟨1, 14, 13⟩ ⟨1, 15, 14⟩ "5" .integer

/-- The registered variable for `c1d`. -/
def c1var : SVar := ⟨"x", i32Ty, .Private, 0⟩

/-- The analyzer state after declaring `c1d` in the global scope. -/
def c1st1 : AState :=
  ⟨some (Scope.mk "global" 0 [c1var] [] [] [] none), [], []⟩

/-- Claim C1, witness for the amended theorem: on `let x: i32 = 5;`,
`canAssignType i64 i32` holds (integer widening of the declared type
into the initializer's type), so no diagnostic is produced. -/
theorem c1_assign_direction_witness :
    c1d.initializer = some c1init ∧
    declareVariable 10 c1d gState = some (c1var, c1st1) ∧
    c1var.isValid = true ∧
    inferExpression 10 c1init c1st1 = some (i64Ty, c1st1) ∧
    i64Ty.isValid = true ∧
    analyzeVariableDeclaration 10 c1d gState = some ((), c1st1) :=
  ⟨rfl, rfl, rfl, rfl, rfl, by
    have h := c1_assign_direction 10 c1d gState c1init c1var c1st1 i64Ty c1st1
      rfl rfl rfl rfl rfl
    have hca : canAssignType i64Ty c1var.type = true := by decide
    rw [hca] at h
    simpa using h⟩

/-! ## Claim C10: the empty array literal initializer -/

/-- Claim C10: for every variable declaration whose initializer is the
empty array literal `[]`, inference of the initializer (`inferArray`)
returns the invalid `none` type, so whenever the analysis of the
declaration completes, its result state carries the Error
"Invalid type for variable initializer". -/
theorem c10_empty_array_initializer (fuel : Nat) (d : VarDecl) (s e : Locus)
    (st : AState) (hinit : d.initializer = some (Expr.arrayE s e []))
    (u : Unit) (st' : AState)
    (hrun : analyzeVariableDeclaration fuel d st = some (u, st')) :
    (⟨.error, "Invalid type for variable initializer: " ++ d.identifier.name⟩ : Err)
      ∈ st'.errors := by
  cases fuel with
  | zero =>
    have h0 : declareVariable 0 d st = none := rfl
    unfold analyzeVariableDeclaration at hrun
    simp [SM.bind_apply, h0] at hrun
  | succ n =>
    have hinfer : ∀ stx : AState,
        inferExpression (n + 1) (Expr.arrayE s e []) stx = some (noneTy, stx) :=
      fun _ => rfl
    unfold analyzeVariableDeclaration at hrun
    obtain ⟨var, st1, hd, hrun⟩ := SM.bind_eq_some.mp hrun
    by_cases hv : var.isValid = true <;>
      simp [hv, hinit, SM.bind_apply, SM.pure_apply, pushErr, pushErrState,
        hinfer, show noneTy.isValid = false from rfl] at hrun <;>
    · subst hrun
      simp

/-- A variable declaration `x : i32 = []` given directly to the
analyzer. -/
def c10d : VarDecl :=
  VarDecl.mk ⟨1, 1, 0⟩ ⟨1, 1, 0⟩ ⟨⟨1, 1, 0⟩, ⟨1, 1, 0⟩, "x"⟩
    (Expr.ident ⟨1, 1, 0⟩ ⟨1, 1, 0⟩ "i32") ⟨⟨1, 1, 0⟩, ⟨1, 1, 0⟩, Accessor.Private, 0⟩
    (some (Expr.arrayE ⟨1, 1, 0⟩ ⟨1, 1, 0⟩ []))

/-- The analyzer state after analyzing `c10d` in the global scope. -/
def c10st : AState :=
  ⟨some (Scope.mk "global" 0 [⟨"x", i32Ty, .Private, 0⟩] [] [] [] none),
   [⟨.error, "Invalid type for variable initializer: x"⟩], []⟩

/-- Claim C10, witness: analyzing `x : i32 = []` in the global scope
produces the Error "Invalid type for variable initializer: x". -/
theorem c10_empty_array_initializer_witness :
    c10d.initializer = some (Expr.arrayE ⟨1, 1, 0⟩ ⟨1, 1, 0⟩ []) ∧
    analyzeVariableDeclaration 10 c10d gState = some ((), c10st) ∧
    (⟨.error, "Invalid type for variable initializer: " ++ c10d.identifier.name⟩ : Err)
      ∈ c10st.errors :=
  ⟨rfl, rfl,
   c10_empty_array_initializer 10 c10d ⟨1, 1, 0⟩ ⟨1, 1, 0⟩ gState rfl () c10st rfl⟩

/-! ## Claim C6: the switch node's end span -/

/-- Claim C6: for every token stream and fuel, if `parseSwitch` produces a
SwitchConditional node, then its case list is non-empty and the node's
span end is the end of the last case branch (the node end is read off
`cases.back()`). -/
theorem c6_switch_end_span (fuel : Nat) (st : PState) (sw : SwitchCond) (st' : PState)
    (h : parseSwitch fuel st = some (sw, st')) :
    ∃ lastCase, sw.caseBranches.getLast? = some lastCase ∧ sw.eLoc = lastCase.eLoc := by
  cases fuel with
  | zero => cases h
  | succ n =>
    simp only [parseSwitch] at h
    obtain ⟨a1, s1, h1, h⟩ := SM.bind_eq_some.mp h
    obtain ⟨se?, s2, h2, h⟩ := SM.bind_eq_some.mp h
    obtain ⟨a3, s3, h3, h⟩ := SM.bind_eq_some.mp h
    obtain ⟨cs, s4, h4, h⟩ := SM.bind_eq_some.mp h
    obtain ⟨a5, s5, h5, h⟩ := SM.bind_eq_some.mp h
    cases se? with
    | none => simp [SM.crash] at h
    | some se =>
      cases hlast : cs.getLast? with
      | none => simp [hlast, SM.crash] at h
      | some lastCase =>
        simp only [hlast, SM.pure_apply, Option.some.injEq, Prod.mk.injEq] at h
        obtain ⟨hsw, -⟩ := h
        subst hsw
        exact ⟨lastCase, hlast, rfl⟩

/-- The parser state holding the tokens of `switch a { case 1 { } }`. -/
def c6state : PState :=
  ⟨(lex "switch a \x7b case 1 \x7b \x7d \x7d").1, 0, Token.defaultTok, []⟩

/-- The switch node parsed from `c6state`. -/
def c6sw : SwitchCond :=
  match parseSwitch 50 c6state with
  | some (sw, _) => sw
  | none => SwitchCond.mk ⟨0, 0, 0⟩ ⟨0, 0, 0⟩ (Expr.ident ⟨0, 0, 0⟩ ⟨0, 0, 0⟩ "") []

/-- The parser state after parsing the switch of `c6state`. -/
def c6st2 : PState :=
  match parseSwitch 50 c6state with
  | some (_, st) => st
  | none => ⟨[], 0, Token.defaultTok, []⟩

/-- Claim C6, witness: parsing `switch a { case 1 { } }` succeeds and the
theorem applies. -/
theorem c6_switch_end_span_witness :
    parseSwitch 50 c6state = some (c6sw, c6st2) ∧
    ∃ lastCase, c6sw.caseBranches.getLast? = some lastCase ∧ c6sw.eLoc = lastCase.eLoc :=
  ⟨rfl, c6_switch_end_span 50 c6state c6sw c6st2 rfl⟩

/-! ## Claim C2 (amended): what the loop bitmask actually accepts -/

/-- The OR-composed scope-kind bitmask produced by nested `enterScope`
calls entering the kinds `ks` in order from the outermost scope. -/
def chainKind (ks : List ScopeKind) : Nat :=
  ks.foldl (fun a k => a ||| k.val) 0

theorem foldl_or_testBit (ks : List ScopeKind) (acc : Nat) (i : Nat) :
    (ks.foldl (fun a k => a ||| k.val) acc).testBit i =
      (acc.testBit i || ks.any (fun k => (k.val).testBit i)) := by
  induction ks generalizing acc with
  | nil => simp
  | cons k ks ih => simp [List.foldl_cons, ih, Nat.testBit_or, Bool.or_assoc]

theorem chainKind_testBit (ks : List ScopeKind) (i : Nat) :
    (chainKind ks).testBit i = ks.any (fun k => (k.val).testBit i) := by
  simp [chainKind, foldl_or_testBit]

theorem and_three_eq_iff (x : Nat) :
    x &&& 3 = 3 ↔ (x.testBit 0 = true ∧ x.testBit 1 = true) := by
  constructor
  · intro h
    constructor
    · have h0 := congrArg (fun y => Nat.testBit y 0) h
      simpa [Nat.testBit_and, show Nat.testBit 3 0 = true from rfl] using h0
    · have h1 := congrArg (fun y => Nat.testBit y 1) h
      simpa [Nat.testBit_and, show Nat.testBit 3 1 = true from rfl] using h1
  · rintro ⟨h0, h1⟩
    apply Nat.eq_of_testBit_eq
    intro i
    rw [Nat.testBit_and]
    match i with
    | 0 => simp [h0]
    | 1 => simp [h1]
    | i + 2 =>
      have h3 : Nat.testBit 3 (i + 2) = false := by
        apply Nat.testBit_eq_false_of_lt
        have : (4 : Nat) ≤ 2 ^ (i + 2) := by
          calc (4 : Nat) = 2 ^ 2 := rfl
          _ ≤ 2 ^ (i + 2) := Nat.pow_le_pow_right (by omega) (by omega)
        omega
      simp [h3]

theorem anyBitZero (ks : List ScopeKind) :
    ks.any (fun k => (k.val).testBit 0) = true ↔
      (ScopeKind.block ∈ ks ∨ ScopeKind.loop ∈ ks ∨ ScopeKind.record ∈ ks) := by
  rw [List.any_eq_true]
  constructor
  · rintro ⟨k, hk, hf⟩
    cases k <;> simp_all [ScopeKind.val] <;> tauto
  · rintro (h | h | h)
    · exact ⟨_, h, by decide⟩
    · exact ⟨_, h, by decide⟩
    · exact ⟨_, h, by decide⟩

theorem anyBitOne (ks : List ScopeKind) :
    ks.any (fun k => (k.val).testBit 1) = true ↔
      (ScopeKind.function ∈ ks ∨ ScopeKind.loop ∈ ks) := by
  rw [List.any_eq_true]
  constructor
  · rintro ⟨k, hk, hf⟩
    cases k <;> simp_all [ScopeKind.val] <;> tauto
  · rintro (h | h)
    · exact ⟨_, h, by decide⟩
    · exact ⟨_, h, by decide⟩

/-- The `hasFlag(kind, Loop)` test on an OR-composed chain of scope kinds
holds exactly when the chain contains a Loop scope, or both a Function
scope and a Block or Record scope (Loop = 3 = Block | Function, and
Record = 5 carries the Block bit). -/
theorem hasFlag_chainKind (ks : List ScopeKind) :
    hasFlagN (chainKind ks) ScopeKind.loop.val = true ↔
      (ScopeKind.loop ∈ ks ∨
        ((ScopeKind.block ∈ ks ∨ ScopeKind.record ∈ ks) ∧ ScopeKind.function ∈ ks)) := by
  show (((chainKind ks &&& 3) == 3) = true) ↔ _
  rw [beq_iff_eq, and_three_eq_iff, chainKind_testBit, chainKind_testBit,
    anyBitZero, anyBitOne]
  tauto

/-- Claim C2 (amended): for every scope whose kind bitmask is the OR of a
chain of entered kinds `ks` (as `enterScope` builds it), a break or
continue statement passes without diagnostic exactly when `ks` contains a
Loop scope or both a Function scope and a Block or Record scope; in every
other position it yields the Error "Break statement not within a loop
scope" / "Continue statement not within a loop scope".  In particular a
break directly inside a function body block (Block | Function = Loop as
integers) is NOT diagnosed, although it is not inside any loop. -/
theorem c2_loop_bitmask (ks : List ScopeKind) (st : AState) (sc : Scope)
    (hsc : st.scope = some sc) (hkind : sc.kind = chainKind ks) :
    analyzeBreakStatement st =
      some ((), if ScopeKind.loop ∈ ks ∨
          ((ScopeKind.block ∈ ks ∨ ScopeKind.record ∈ ks) ∧ ScopeKind.function ∈ ks)
        then st
        else pushErrState st ⟨.error, "Break statement not within a loop scope."⟩) ∧
    analyzeContinueStatement st =
      some ((), if ScopeKind.loop ∈ ks ∨
          ((ScopeKind.block ∈ ks ∨ ScopeKind.record ∈ ks) ∧ ScopeKind.function ∈ ks)
        then st
        else pushErrState st ⟨.error, "Continue statement not within a loop scope."⟩) := by
  by_cases hc : ScopeKind.loop ∈ ks ∨
      ((ScopeKind.block ∈ ks ∨ ScopeKind.record ∈ ks) ∧ ScopeKind.function ∈ ks)
  · have hflag : hasFlagN (chainKind ks) ScopeKind.loop.val = true :=
      (hasFlag_chainKind ks).mpr hc
    constructor <;>
      simp [analyzeBreakStatement, analyzeContinueStatement, SM.bind_apply, SM.get,
        hsc, hkind, hflag, hc, SM.pure_apply]
  · have hflag : hasFlagN (chainKind ks) ScopeKind.loop.val = false :=
      Bool.eq_false_iff.mpr (fun h => hc ((hasFlag_chainKind ks).mp h))
    constructor <;>
      simp [analyzeBreakStatement, analyzeContinueStatement, SM.bind_apply, SM.get,
        hsc, hkind, hflag, hc, pushErr, pushErrState]

/-- A scope chain global → function "f" → block, as the analyzer builds
it for a break directly inside a function body. -/
def c2scope : Scope :=
  Scope.mk "block" 3 [] [] [] []
    (some (Scope.mk "f" 2 [] [] [] []
      (some (Scope.mk "global" 0 [] [] [] [] none))))

/-- The analyzer state at the break inside `fn f { ... }`. -/
def c2st : AState := ⟨some c2scope, [], []⟩

/-- Claim C2, witness for the amended theorem: with the chain
global → function → block (kind bitmask 3), break and continue pass
without diagnostic although no loop is present. -/
theorem c2_loop_bitmask_witness :
    c2st.scope = some c2scope ∧
    c2scope.kind = chainKind [ScopeKind.global, ScopeKind.function, ScopeKind.block] ∧
    analyzeBreakStatement c2st = some ((), c2st) ∧
    analyzeContinueStatement c2st = some ((), c2st) := by
  have h := c2_loop_bitmask [ScopeKind.global, ScopeKind.function, ScopeKind.block]
    c2st c2scope rfl rfl
  refine ⟨rfl, rfl, ?_, ?_⟩
  · have h1 := h.1
    simpa using h1
  · have h2 := h.2
    simpa using h2

end ML
